import Mathlib

/-!
# Verification of the mylab-api-go query/schema core

Shallow embedding of the repository's query/schema subsystem:

* `Eloquent` — the `internal/database/eloquent` package: schema values,
  cast/type coercion (`castValue`, `parseDateTime`), payload
  normalization (`normalizePayload`), the paged select (`SelectPage`)
  with its positional-placeholder `SqlBuilder`, and the tenant-scoped
  CRUD executors (`UpdateByPKAndTenant`, `DeleteByPKAndTenant`).
* `QueryDsl` — the `internal/querydsl` package: the restricted
  query-expression parser (`ParseLaravelQuery`), the registry-backed
  builder (`BuildSQL`) and the introspection-backed builder
  (`BuildSQLWithIntrospection`) with `TablePolicy`.

Modelling conventions:

* Go `any` values are the closed inductive `GoVal`; Go maps become
  association lists traversed in insertion order (Go map iteration
  order is unspecified; where the source sorts keys the embedding
  sorts them the same way).
* Machine integers are `Int` with explicit two-power range checks where
  the source's `strconv` range checks matter.
* `float64` is carried as an exact rational (plus infinities and NaN);
  rounding to binary64 and Go's shortest-float formatting are
  abstracted, and no claim below depends on a float's numeric value.
* Database access is a caller-supplied function from SQL text and a
  positional argument list to rows (or an affected-row count), standing
  for `Querier.QueryContext` / `ExecContext`.
* ASCII is assumed for `strings.TrimSpace` / `ToLower` / `ToUpper`.
-/

namespace MyLab

/-- The single-quote character, used by the query-expression grammar. -/
def quoteChar : Char := Char.ofNat 39

/-- One-character string holding `quoteChar`. -/
def quoteStr : String := String.mk [quoteChar]

/-- Equality on `Except`, so that concrete runs can be settled by
`decide`. -/
instance instDecEqExcept {α β : Type} [DecidableEq α] [DecidableEq β] :
    DecidableEq (Except α β)
  | .error a, .error b =>
      if h : a = b then .isTrue (by rw [h])
      else .isFalse (by intro hc; cases hc; exact h rfl)
  | .error _, .ok _ => .isFalse (by intro hc; exact Except.noConfusion hc)
  | .ok _, .error _ => .isFalse (by intro hc; exact Except.noConfusion hc)
  | .ok a, .ok b =>
      if h : a = b then .isTrue (by rw [h])
      else .isFalse (by intro hc; cases hc; exact h rfl)

/-! ## Go value universe -/

/-- A Go `float64` value: an exact finite rational, an infinity, or NaN.
Rounding to binary64 is abstracted (no claim depends on float values). -/
inductive FloatVal where
  | finite (q : ℚ)
  | inf (neg : Bool)
  | nan
deriving DecidableEq, Repr

/-- A Go `time.Time` value as wall-clock fields plus a UTC offset in
minutes. The monotonic clock reading is not modelled. -/
structure DateTime where
  year : Nat
  month : Nat
  day : Nat
  hour : Nat
  minute : Nat
  second : Nat
  nanos : Nat
  offMinutes : Int
deriving DecidableEq, Repr

/-- The dynamic (`any`) values flowing through the core: JSON-decoded
payload entries, filter values and SQL arguments. `vjson` is
`json.Number` (the `jsonNumber` duck type of the source). -/
inductive GoVal where
  | vnull
  | vbool (b : Bool)
  | vint (n : Int)
  | vfloat (f : FloatVal)
  | vstr (s : String)
  | vtime (t : DateTime)
  | vjson (s : String)
deriving DecidableEq, Repr

/-! ## Go standard-library helpers used by the source -/

/-- `strings.TrimSpace` (ASCII whitespace model). Implemented over the
character list so that concrete runs reduce inside the kernel. -/
def goTrim (s : String) : String :=
  String.mk (((s.toList.dropWhile Char.isWhitespace).reverse.dropWhile
    Char.isWhitespace).reverse)

/-- `strings.ToLower` (ASCII model). -/
def goLower (s : String) : String := String.mk (s.toList.map Char.toLower)

/-- `strings.ToUpper` (ASCII model). -/
def goUpper (s : String) : String := String.mk (s.toList.map Char.toUpper)

/-- `strings.Join`. -/
def goJoin (xs : List String) (sep : String) : String :=
  match xs with
  | [] => ""
  | x :: rest => rest.foldl (fun acc y => acc ++ sep ++ y) x

/-- Does the list start with the given pattern? -/
def listStartsWith : List Char → List Char → Bool
  | _, [] => true
  | [], _ :: _ => false
  | c :: cs, p :: ps => c = p && listStartsWith cs ps

/-- The scan behind `goSplitOn`. The fuel bounds the iteration count:
every step consumes at least one character (the separator is
non-empty at every use site), so the `0` case is unreachable. -/
def goSplitOnAux (sep : List Char) : Nat → List Char → List Char → List String
  | 0, acc, rest => [String.mk (acc ++ rest)]
  | _ + 1, acc, [] => [String.mk acc]
  | fuel + 1, acc, c :: rest =>
      if listStartsWith (c :: rest) sep then
        String.mk acc :: goSplitOnAux sep fuel [] ((c :: rest).drop sep.length)
      else goSplitOnAux sep fuel (acc ++ [c]) rest

/-- `strings.Split` with a non-empty separator (every use here passes
`"->"`, `","` or `"."`): left-to-right, non-overlapping, `""` yields
`[""]`. -/
def goSplitOn (s : String) (sep : String) : List String :=
  goSplitOnAux sep.toList (s.toList.length + 1) [] s.toList

/-- Split at characters satisfying a predicate (empty runs kept). -/
def splitByPred (p : Char → Bool) : List Char → List (List Char)
  | [] => [[]]
  | c :: rest =>
      match splitByPred p rest with
      | [] => if p c then [[], []] else [[c]]
      | h :: t => if p c then [] :: h :: t else (c :: h) :: t

/-- Decimal digits to the natural number they denote. -/
def digitsToNat (cs : List Char) : Nat :=
  cs.foldl (fun a c => a * 10 + (c.toNat - 48)) 0

/-- `strconv.ParseInt(s, 10, 64)`: optional sign, decimal digits, with
the int64 range check; `none` is Go's non-nil error. -/
def goParseInt64 (s : String) : Option Int :=
  let cs := s.toList
  let signed : Bool × List Char :=
    match cs with
    | c :: rest =>
        if c = '-' then (true, rest)
        else if c = '+' then (false, rest)
        else (false, cs)
    | [] => (false, [])
  let ds := signed.2
  if ds.isEmpty then none
  else if ds.all Char.isDigit then
    let v : Int := if signed.1 then -(Int.ofNat (digitsToNat ds)) else Int.ofNat (digitsToNat ds)
    if -(2 ^ 63) ≤ v ∧ v ≤ 2 ^ 63 - 1 then some v else none
  else none

/-- Split a digit run off the front of a character list. -/
def takeDigits : List Char → List Char × List Char
  | [] => ([], [])
  | c :: rest =>
      if c.isDigit then
        let (ds, rs) := takeDigits rest
        (c :: ds, rs)
      else ([], c :: rest)

/-- `strconv.ParseFloat(s, 64)` on the decimal forms (plus `inf`,
`infinity`, `nan`): the mantissa/exponent are kept as an exact rational;
Go's hex-float syntax and binary64 rounding are abstracted. Values
whose magnitude reaches the binary64 overflow threshold mirror Go's
`ErrRange` as `none`. -/
def goParseFloat64 (s : String) : Option FloatVal :=
  let cs := s.toList
  let signed : Bool × List Char :=
    match cs with
    | c :: rest =>
        if c = '-' then (true, rest)
        else if c = '+' then (false, rest)
        else (false, cs)
    | [] => (false, [])
  let neg := signed.1
  let body := signed.2
  let lowerBody := goLower (String.mk body)
  if lowerBody = "inf" ∨ lowerBody = "infinity" then some (.inf neg)
  else if lowerBody = "nan" then some .nan
  else
    let (ip, rest1) := takeDigits body
    let fracParsed : Option (List Char × List Char) :=
      match rest1 with
      | '.' :: r =>
          let (fp, rs) := takeDigits r
          some (fp, rs)
      | _ => some ([], rest1)
    match fracParsed with
    | none => none
    | some (fp, rest2) =>
        if ip.isEmpty ∧ fp.isEmpty then none
        else
          let expParsed : Option (Int × List Char) :=
            match rest2 with
            | c :: r =>
                if c = 'e' ∨ c = 'E' then
                  let esigned : Bool × List Char :=
                    match r with
                    | d :: rr =>
                        if d = '-' then (true, rr)
                        else if d = '+' then (false, rr)
                        else (false, r)
                    | [] => (false, [])
                  let (eds, rr2) := takeDigits esigned.2
                  if eds.isEmpty then none
                  else
                    let e : Int := Int.ofNat (digitsToNat eds)
                    some (if esigned.1 then -e else e, rr2)
                else none
            | [] => some (0, [])
          match expParsed with
          | none => none
          | some (e, rest3) =>
              if rest3.isEmpty then
                let mant : ℚ := (digitsToNat (ip ++ fp) : ℚ) / ((10 : ℚ) ^ fp.length)
                let q : ℚ := (if neg then -mant else mant) * (10 : ℚ) ^ e
                if |q| ≥ (2 : ℚ) ^ 1024 then none else some (.finite q)
              else none

/-- Go's `int64(f)` conversion for a `float64`: truncation toward zero;
NaN/±Inf saturate as on common Go targets (no claim depends on it). -/
def floatToInt64 : FloatVal → Int
  | .finite q => Int.tdiv q.num (q.den : Int)
  | .inf neg => if neg then -(2 ^ 63) else 2 ^ 63 - 1
  | .nan => -(2 ^ 63)

/-- `fmt.Sprint` / `%v` rendering of a value. Float and time renderings
abstract Go's shortest-float and `time.Time.String` formats (no claim
depends on their exact digits). -/
def goSprint : GoVal → String
  | .vnull => "<nil>"
  | .vbool b => if b then "true" else "false"
  | .vint n => toString n
  | .vfloat (.finite q) => toString q.num ++ "/" ++ toString q.den
  | .vfloat (.inf neg) => if neg then "-Inf" else "+Inf"
  | .vfloat .nan => "NaN"
  | .vtime t =>
      toString t.year ++ "-" ++ toString t.month ++ "-" ++ toString t.day ++ " " ++
        toString t.hour ++ ":" ++ toString t.minute ++ ":" ++ toString t.second
  | .vjson s => s
  | .vstr s => s

/-! ## Datetime parsing (`parseDateTime`, part_015) -/

/-- Exactly `n` leading digits, returning their value and the rest. -/
def parseFixedDigits (n : Nat) (cs : List Char) : Option (Nat × List Char) :=
  let ds := cs.take n
  if ds.length = n ∧ ds.all Char.isDigit then some (digitsToNat ds, cs.drop n)
  else none

/-- Days in a month, with Gregorian leap years (Go's `time` reference
calendar). -/
def daysInMonth (y m : Nat) : Nat :=
  if m = 2 then
    if y % 4 = 0 ∧ (y % 100 ≠ 0 ∨ y % 400 = 0) then 29 else 28
  else if m = 4 ∨ m = 6 ∨ m = 9 ∨ m = 11 then 30
  else 31

/-- `YYYY-MM-DD` with Go's range validation. -/
def parseDatePart (cs : List Char) : Option ((Nat × Nat × Nat) × List Char) :=
  match parseFixedDigits 4 cs with
  | none => none
  | some (y, r1) =>
      match r1 with
      | '-' :: r2 =>
          match parseFixedDigits 2 r2 with
          | none => none
          | some (mo, r3) =>
              match r3 with
              | '-' :: r4 =>
                  match parseFixedDigits 2 r4 with
                  | none => none
                  | some (d, r5) =>
                      if 1 ≤ mo ∧ mo ≤ 12 ∧ 1 ≤ d ∧ d ≤ daysInMonth y mo then
                        some ((y, mo, d), r5)
                      else none
              | _ => none
      | _ => none

/-- `HH:MM:SS` with Go's range validation. -/
def parseTimePart (cs : List Char) : Option ((Nat × Nat × Nat) × List Char) :=
  match parseFixedDigits 2 cs with
  | none => none
  | some (h, r1) =>
      match r1 with
      | ':' :: r2 =>
          match parseFixedDigits 2 r2 with
          | none => none
          | some (mi, r3) =>
              match r3 with
              | ':' :: r4 =>
                  match parseFixedDigits 2 r4 with
                  | none => none
                  | some (se, r5) =>
                      if h ≤ 23 ∧ mi ≤ 59 ∧ se ≤ 59 then some ((h, mi, se), r5)
                      else none
              | _ => none
      | _ => none

/-- Optional fractional second (`.digits`), truncated to nanoseconds as
Go does. -/
def parseFracPart (cs : List Char) : Nat × List Char :=
  match cs with
  | '.' :: r =>
      let (ds, rest) := takeDigits r
      if ds.isEmpty then (0, cs)
      else
        let padded := (ds.take 9) ++ List.replicate (9 - (ds.take 9).length) '0'
        (digitsToNat padded, rest)
  | _ => (0, cs)

/-- Zone offset `Z` or `±HH:MM`, in minutes. -/
def parseZonePart (cs : List Char) : Option (Int × List Char) :=
  match cs with
  | 'Z' :: r => some (0, r)
  | c :: r =>
      if c = '+' ∨ c = '-' then
        match parseFixedDigits 2 r with
        | none => none
        | some (h, r1) =>
            match r1 with
            | ':' :: r2 =>
                match parseFixedDigits 2 r2 with
                | none => none
                | some (mi, r3) =>
                    let total : Int := Int.ofNat (h * 60 + mi)
                    some (if c = '-' then -total else total, r3)
            | _ => none
      else none
  | [] => none

/-- One RFC-3339 layout: `YYYY-MM-DDTHH:MM:SS[.frac]offset`; the
fractional second is accepted only for the `RFC3339Nano` layout. -/
def parseRFC3339 (allowFrac : Bool) (s : String) : Option DateTime :=
  match parseDatePart s.toList with
  | none => none
  | some ((y, mo, d), r1) =>
      match r1 with
      | 'T' :: r2 =>
          match parseTimePart r2 with
          | none => none
          | some ((h, mi, se), r3) =>
              let fr := if allowFrac then parseFracPart r3 else (0, r3)
              match parseZonePart fr.2 with
              | none => none
              | some (off, rest) =>
                  if rest.isEmpty then
                    some ⟨y, mo, d, h, mi, se, fr.1, off⟩
                  else none
      | _ => none

/-- Layout `"2006-01-02 15:04:05"`. -/
def parseDateSpaceTime (s : String) : Option DateTime :=
  match parseDatePart s.toList with
  | none => none
  | some ((y, mo, d), r1) =>
      match r1 with
      | ' ' :: r2 =>
          match parseTimePart r2 with
          | none => none
          | some ((h, mi, se), r3) =>
              if r3.isEmpty then some ⟨y, mo, d, h, mi, se, 0, 0⟩ else none
      | _ => none

/-- Layout `"2006-01-02"`. -/
def parseDateOnly (s : String) : Option DateTime :=
  match parseDatePart s.toList with
  | none => none
  | some ((y, mo, d), rest) =>
      if rest.isEmpty then some ⟨y, mo, d, 0, 0, 0, 0, 0⟩ else none

/-- `parseDateTime` (part_015 lines 127-142): trim, then try
`RFC3339Nano`, `RFC3339`, `"2006-01-02 15:04:05"`, `"2006-01-02"` in
order; first match wins; `none` is the non-nil error. -/
def parseDateTime (raw : String) : Option DateTime :=
  let v := goTrim raw
  match parseRFC3339 true v with
  | some t => some t
  | none =>
      match parseRFC3339 false v with
      | some t => some t
      | none =>
          match parseDateSpaceTime v with
          | some t => some t
          | none => parseDateOnly v

namespace Eloquent

open MyLab

/-! ## Cast/type coercion (`castValue`, part_015) -/

/-- `CastType` (part_014 lines 8-16). -/
inductive CastType where
  | string
  | int
  | float
  | bool
  | datetime
deriving DecidableEq, Repr

/-- Association-list lookup, standing for a Go map read. -/
def alookup {α : Type} (m : List (String × α)) (k : String) : Option α :=
  (m.find? (fun p => p.1 = k)).map Prod.snd

/-- `castValue` (part_015 lines 10-116): `Except.error msg` is the Go
non-empty error string; `Except.ok none` is Go's `nil` coerced value
("no value"). A `nil` cast map is the empty association list. -/
def castValue (casts : List (String × CastType)) (key : String) (value : GoVal) :
    Except String (Option GoVal) :=
  match value with
  | .vnull => .ok none
  | v =>
    match alookup casts key with
    | none => .ok (some v)
    | some ct =>
      match ct with
      | .string =>
          match v with
          | .vstr s => .ok (some (.vstr s))
          | other => .ok (some (.vstr (goSprint other)))
      | .int =>
          match v with
          | .vint n => .ok (some (.vint n))
          | .vfloat f => .ok (some (.vint (floatToInt64 f)))
          | .vjson s =>
              match goParseInt64 s with
              | none => .error "must be an integer"
              | some i => .ok (some (.vint i))
          | .vstr s =>
              if goTrim s = "" then .ok none
              else
                match goParseInt64 (goTrim s) with
                | none => .error "must be an integer"
                | some i => .ok (some (.vint i))
          | _ => .error "must be an integer"
      | .float =>
          match v with
          | .vfloat f => .ok (some (.vfloat f))
          | .vint n => .ok (some (.vfloat (.finite (n : ℚ))))
          | .vstr s =>
              if goTrim s = "" then .ok none
              else
                match goParseFloat64 (goTrim s) with
                | none => .error "must be a number"
                | some f => .ok (some (.vfloat f))
          | _ => .error "must be a number"
      | .bool =>
          match v with
          | .vbool b => .ok (some (.vbool b))
          | .vstr s =>
              let vv := goLower (goTrim s)
              if vv = "" then .ok none
              else if vv = "1" ∨ vv = "true" ∨ vv = "yes" ∨ vv = "y" then .ok (some (.vbool true))
              else if vv = "0" ∨ vv = "false" ∨ vv = "no" ∨ vv = "n" then .ok (some (.vbool false))
              else .error "must be a boolean"
          | _ => .error "must be a boolean"
      | .datetime =>
          match v with
          | .vtime t => .ok (some (.vtime t))
          | .vstr s =>
              if goTrim s = "" then .ok none
              else
                match parseDateTime s with
                | none => .error "must be a datetime"
                | some t => .ok (some (.vtime t))
          | _ => .error "must be a datetime"

/-! ## Schema and payload normalization (part_014) -/

/-- `eloquent.Schema` (part_014 lines 18-27). The `Now` clock function
is modelled as the field `nowTime`, the clock's current reading;
`withDefaults` (which only installs `time.Now` when the clock is nil)
is therefore the identity here. -/
structure Schema where
  table : String
  primaryKey : String
  columns : List String
  casts : List (String × CastType)
  fillable : List String
  aliases : List (String × String)
  timestamps : Bool
  nowTime : DateTime
deriving DecidableEq, Repr

/-- `Schema.hasColumn` (part_014 lines 37-44): linear membership in the
column list. -/
def Schema.hasColumn (s : Schema) (col : String) : Bool :=
  s.columns.contains col

/-- Modelled from the spec: the exported `Schema.HasColumn` used by the
query builders (part_026) and the CRUD controller is not among the
repository's source files — only its callers are. The spec requires
every referenced column to "appear in the schema's column list", so it
is membership in `columns`, like the package-private `hasColumn`. -/
def Schema.HasColumn (s : Schema) (col : String) : Bool :=
  s.columns.contains col

/-- The two error kinds the core surfaces (part_013 lines 370-385),
plus an opaque database failure passed through unmodified. -/
inductive AppError where
  | validation (errs : List (String × String))
  | notFound (table : String) (pk : GoVal)
  | dbError (msg : String)
deriving DecidableEq, Repr

/-- Go map write (`m[k] = v`): replace in place or append. Association
lists model Go maps with iteration in insertion order. -/
def minsert {α : Type} (m : List (String × α)) (k : String) (v : α) : List (String × α) :=
  if (m.find? (fun p => p.1 = k)).isSome then
    m.map (fun p => if p.1 = k then (k, v) else p)
  else m ++ [(k, v)]

/-- `Schema.fillableSet` (part_014 lines 46-64) as its membership
function: the explicit fillable list when non-empty, otherwise all
columns except the primary key. -/
def Schema.fillableSet (s : Schema) (c : String) : Bool :=
  if s.fillable.length > 0 then s.fillable.contains c
  else s.columns.contains c && decide (c ≠ s.primaryKey)

/-- Alias resolution inside `normalizePayload` (part_014 lines 72-83):
trim, then map through the alias table when present. -/
def applyAlias (s : Schema) (key : String) : String :=
  match alookup s.aliases key with
  | some mapped => mapped
  | none => key

/-- One step of the alias pass of `normalizePayload` (part_014 lines
72-83): trim the key, drop it when blank, resolve it through the alias
map, and write it into the working map. -/
def aliasStep (s : Schema) (acc : List (String × GoVal)) (kv : String × GoVal) :
    List (String × GoVal) :=
  if goTrim kv.1 = "" then acc
  else minsert acc (applyAlias s (goTrim kv.1)) kv.2

/-- One step of the fillable/cast pass of `normalizePayload` (part_014
lines 86-98): skip keys outside the fillable set, cast the rest,
collecting the value or the per-field error. -/
def normalizeStep (s : Schema) (acc : List (String × GoVal) × List (String × String))
    (kv : String × GoVal) : List (String × GoVal) × List (String × String) :=
  if s.fillableSet kv.1 then
    match castValue s.casts kv.1 kv.2 with
    | .error e => (acc.1, minsert acc.2 kv.1 e)
    | .ok casted => (minsert acc.1 kv.1 (casted.getD .vnull), acc.2)
  else acc

/-- `Schema.normalizePayload` (part_014 lines 66-105): apply aliases
(dropping blank keys), filter to the fillable set, cast each value,
collect per-field errors. `Except.ok` carries the normalized
column→value map; a cast that yields Go `nil` stores `vnull`. -/
def Schema.normalizePayload (s : Schema) (payload : List (String × GoVal)) :
    Except AppError (List (String × GoVal)) :=
  let data := payload.foldl (aliasStep s) []
  let filtered := data.foldl (normalizeStep s) ([], [])
  if filtered.2.length > 0 then .error (.validation filtered.2)
  else .ok filtered.1

/-! ## Paged select (`SelectPage`, part_012) -/

/-- `OrderBy` (part_012 lines 10-13). -/
structure OrderBy where
  field : String
  dir : String
deriving DecidableEq, Repr

/-- `SelectRequest` (part_012 lines 15-22): `whereM`/`likeM` are the
`Where`/`Like` JSON maps as insertion-ordered association lists. -/
structure SelectRequest where
  select : List String
  whereM : List (String × GoVal)
  likeM : List (String × GoVal)
  orderBy : List OrderBy
  page : Int
  perPage : Int
deriving DecidableEq, Repr

/-- A returned database row, as scanned into a column→value map. -/
abbrev Row : Type := List (String × GoVal)

/-- `PageResult` (part_012 lines 24-29). -/
structure PageResult where
  rows : List Row
  page : Int
  perPage : Int
  hasMore : Bool
deriving DecidableEq, Repr

/-- `DefaultPerPage` (part_012 line 32). -/
def DefaultPerPage : Int := 25

/-- `MaxPerPage` (part_012 line 33). -/
def MaxPerPage : Int := 200

/-- The positional-placeholder argument collector (part_012 lines
230-254). -/
structure SqlBuilder where
  args : List GoVal
deriving DecidableEq, Repr

/-- `sqlBuilder.push` (part_012 lines 238-241): append the value and
return its 1-based placeholder `$n`. -/
def SqlBuilder.push (b : SqlBuilder) (v : GoVal) : String × SqlBuilder :=
  ("$" ++ toString (b.args ++ [v]).length, ⟨b.args ++ [v]⟩)

/-- `sqlBuilder.arg` (part_012 lines 243-245). -/
def SqlBuilder.arg (b : SqlBuilder) (v : GoVal) : String × SqlBuilder :=
  b.push v

/-- `sqlBuilder.eq` (part_012 lines 247-249). -/
def SqlBuilder.eq (b : SqlBuilder) (col : String) (v : GoVal) : String × SqlBuilder :=
  (col ++ " = " ++ (b.push v).1, (b.push v).2)

/-- `sqlBuilder.ilike` (part_012 lines 251-254). -/
def SqlBuilder.ilike (b : SqlBuilder) (col : String) (v : GoVal) : String × SqlBuilder :=
  (col ++ " ILIKE " ++ (b.push v).1, (b.push v).2)

/-- `resolveAlias` (part_012 lines 211-219). -/
def resolveAlias (s : Schema) (key : String) : String :=
  let k := goTrim key
  match alookup s.aliases k with
  | some mapped => mapped
  | none => k

/-- Go byte-order `≤` on strings (`sort.Strings` order; UTF-8 byte
order coincides with code-point order). -/
def strLe (a b : String) : Bool := !(decide (b < a))

/-- Insert into an ascending list. -/
def insertSorted (x : String) : List String → List String
  | [] => [x]
  | y :: ys => if strLe x y then x :: y :: ys else y :: insertSorted x ys

/-- Ascending sort of strings, as `sort.Strings` produces. -/
def sortStrings (xs : List String) : List String :=
  xs.foldr insertSorted []

/-- First-occurrence deduplication of map keys. Go map keys are unique
by construction; association lists may repeat a key, and a Go map built
from them would keep one entry per key. -/
def dedupAux (seen : List String) : List String → List String
  | [] => []
  | k :: rest =>
      if seen.contains k then dedupAux seen rest
      else k :: dedupAux (seen ++ [k]) rest

/-- Keys with later duplicates dropped. -/
def dedupKeys (ks : List String) : List String := dedupAux [] ks

/-- `sortedKeys` (part_012 lines 221-228): the map's key set in
ascending order. -/
def sortedKeys {α : Type} (m : List (String × α)) : List String :=
  sortStrings (dedupKeys (m.map Prod.fst))

/-- One iteration of the select-normalization loop of `normalizeSelect`
(part_012 lines 150-171), over the accumulator (kept columns, error
map, seen set). -/
def selectStep (schema : Schema)
    (st : List String × List (String × String) × List String) (raw : String) :
    List String × List (String × String) × List String :=
  if goTrim (resolveAlias schema raw) = "" then st
  else if st.2.2.contains (goTrim (resolveAlias schema raw)) then st
  else if ¬ schema.hasColumn (goTrim (resolveAlias schema raw)) then
    (st.1, minsert st.2.1 raw "unknown field",
      st.2.2 ++ [goTrim (resolveAlias schema raw)])
  else
    (st.1 ++ [goTrim (resolveAlias schema raw)], st.2.1,
      st.2.2 ++ [goTrim (resolveAlias schema raw)])

/-- `normalizeSelect` (part_012 lines 143-175): the loop body is
`selectStep`; unknown columns are collected keyed by the caller's
original `raw` text. -/
def normalizeSelect (schema : Schema) (selectCols : List String) :
    Except AppError (List String) :=
  if selectCols.isEmpty then .ok schema.columns
  else
    let acc := selectCols.foldl (selectStep schema) ([], [], [])
    if acc.2.1.length > 0 then .error (.validation acc.2.1)
    else if acc.1.isEmpty then .error (.validation [("select", "empty")])
    else .ok acc.1

/-- The order-by direction normalization of `SelectPage` (part_012
lines 195-198): lowercased, defaulting to `asc` when blank. -/
def orderDirLower (dir : String) : String :=
  if goLower (goTrim dir) = "" then "asc" else goLower (goTrim dir)

/-- One iteration of the order-by validation loop of `buildOrderBy`
(part_012 lines 181-206), over the accumulator (clause texts, error
map). -/
def orderByStep (schema : Schema) (st : List String × List (String × String))
    (iob : Nat × OrderBy) : List String × List (String × String) :=
  if goTrim (resolveAlias schema iob.2.field) = "" then
    (st.1, minsert st.2 ("order_by[" ++ toString iob.1 ++ "].field") "required")
  else if ¬ schema.hasColumn (goTrim (resolveAlias schema iob.2.field)) then
    (st.1, minsert st.2 ("order_by[" ++ toString iob.1 ++ "].field") "unknown field")
  else
    if orderDirLower iob.2.dir ≠ "asc" ∧ orderDirLower iob.2.dir ≠ "desc" then
      (st.1, minsert st.2 ("order_by[" ++ toString iob.1 ++ "].dir") "must be asc or desc")
    else (st.1 ++ [goTrim (resolveAlias schema iob.2.field) ++ " " ++
      goUpper (orderDirLower iob.2.dir)], st.2)

/-- The order-by validation of `SelectPage` (part_012 lines 177-209):
the loop body is `orderByStep`; its errors are keyed by the positional
path of the offending clause. -/
def buildOrderBy (schema : Schema) (orderBy : List OrderBy) :
    Except AppError String :=
  if orderBy.isEmpty then .ok ""
  else
    let acc := orderBy.enum.foldl (orderByStep schema) ([], [])
    if acc.2.length > 0 then .error (.validation acc.2)
    else .ok (" ORDER BY " ++ goJoin acc.1 ",")

/-- The `WHERE`-equality loop of `SelectPage` (part_012 lines 74-86),
over the sorted key list. The source's `if col == schema.PrimaryKey`
branch is an explicit no-op ("allow"). -/
def applyEqFilters (schema : Schema) (m : List (String × GoVal)) :
    List String → SqlBuilder → Except AppError (List String × SqlBuilder)
  | [], b => .ok ([], b)
  | k :: rest, b =>
      if ¬ schema.hasColumn (resolveAlias schema k) then
        .error (.validation [(k, "unknown field")])
      else
        match applyEqFilters schema m rest
            (b.eq (resolveAlias schema k) ((alookup m k).getD .vnull)).2 with
        | .error v => .error v
        | .ok (parts, b3) =>
            .ok ((b.eq (resolveAlias schema k) ((alookup m k).getD .vnull)).1 :: parts, b3)

/-- The `LIKE` loop of `SelectPage` (part_012 lines 89-99): the bound
pattern is always `fmt.Sprintf("%%%v%%", value)`. -/
def applyLikeFilters (schema : Schema) (m : List (String × GoVal)) :
    List String → SqlBuilder → Except AppError (List String × SqlBuilder)
  | [], b => .ok ([], b)
  | k :: rest, b =>
      if ¬ schema.hasColumn (resolveAlias schema k) then
        .error (.validation [(k, "unknown field")])
      else
        match applyLikeFilters schema m rest
            (b.ilike (resolveAlias schema k)
              (.vstr ("%" ++ goSprint ((alookup m k).getD .vnull) ++ "%"))).2 with
        | .error v => .error v
        | .ok (parts, b3) =>
            .ok ((b.ilike (resolveAlias schema k)
              (.vstr ("%" ++ goSprint ((alookup m k).getD .vnull) ++ "%"))).1 :: parts, b3)

/-- The query `SelectPage` is about to execute: its SQL text, ordered
argument list and the clamped paging values. -/
structure BuiltSelect where
  sql : String
  args : List GoVal
  page : Int
  perPage : Int
deriving DecidableEq, Repr

/-- The page default of `SelectPage` (part_012 lines 50-54): non-positive
pages fall back to 1. -/
def clampPage (p : Int) : Int := if p ≤ 0 then 1 else p

/-- The page-size default and cap of `SelectPage` (part_012 lines
55-60): non-positive sizes fall back to `DefaultPerPage`, larger ones
are clamped to `MaxPerPage`. -/
def clampPerPage (pp : Int) : Int :=
  if (if pp ≤ 0 then DefaultPerPage else pp) > MaxPerPage then MaxPerPage
  else (if pp ≤ 0 then DefaultPerPage else pp)

/-- The query-building half of `SelectPage` (part_012 lines 36-114):
validations, paging defaults/clamp, tenant predicate, filters,
ordering, and the final parameterized SQL text. The source computes
`offset`/`limit` before the tenant-column check; both steps are pure,
so the order does not matter. -/
def selectPageQuery (schema : Schema) (companyID : Int) (req : SelectRequest) :
    Except AppError BuiltSelect :=
  if companyID ≤ 0 then .error (.validation [("company_id", "invalid")])
  else
    match normalizeSelect schema req.select with
    | .error v => .error v
    | .ok selectCols =>
        if ¬ schema.hasColumn "company_id" then
          .error (.validation
            [("company_id", "schema does not support tenant filter (company_id missing)")])
        else
          match applyEqFilters schema req.whereM (sortedKeys req.whereM)
              (SqlBuilder.eq ⟨[]⟩ "company_id" (.vint companyID)).2 with
          | .error v => .error v
          | .ok (eqParts, b2) =>
              match applyLikeFilters schema req.likeM (sortedKeys req.likeM) b2 with
              | .error v => .error v
              | .ok (likeParts, b3) =>
                  match buildOrderBy schema req.orderBy with
                  | .error v => .error v
                  | .ok orderBySQL =>
                      .ok
                        ⟨"SELECT " ++ goJoin selectCols "," ++ " FROM " ++ schema.table ++
                            " WHERE " ++
                            goJoin ((SqlBuilder.eq ⟨[]⟩ "company_id" (.vint companyID)).1 ::
                              (eqParts ++ likeParts)) " AND " ++
                            orderBySQL ++ " LIMIT " ++
                            (b3.arg (.vint (clampPerPage req.perPage + 1))).1 ++ " OFFSET " ++
                            ((b3.arg (.vint (clampPerPage req.perPage + 1))).2.arg
                              (.vint ((clampPage req.page - 1) * clampPerPage req.perPage))).1,
                          ((b3.arg (.vint (clampPerPage req.perPage + 1))).2.arg
                            (.vint ((clampPage req.page - 1) * clampPerPage req.perPage))).2.args,
                          clampPage req.page, clampPerPage req.perPage⟩

/-- A database handle for `QueryContext`: SQL text and positional
arguments to scanned rows, or an opaque failure. -/
def Querier : Type := String → List GoVal → Except String (List Row)

/-- `SelectPage` (part_012 lines 36-141): build the query, run it, and
trim the over-fetched row while setting `has_more`. -/
def SelectPage (q : Querier) (schema : Schema) (companyID : Int) (req : SelectRequest) :
    Except AppError PageResult :=
  match selectPageQuery schema companyID req with
  | .error e => .error e
  | .ok bs =>
      match q bs.sql bs.args with
      | .error e => .error (.dbError e)
      | .ok rows =>
          if (rows.length : Int) > bs.perPage then
            .ok ⟨rows.take bs.perPage.toNat, bs.page, bs.perPage, true⟩
          else
            .ok ⟨rows, bs.page, bs.perPage, false⟩

/-! ## Tenant-scoped CRUD executors (part_013) -/

/-- A database handle for `ExecContext`: the outer `Except` is the
execution error; the inner one is `Result.RowsAffected()`. -/
def Execer : Type := String → List GoVal → Except String (Except String Int)

/-- `toSortedColsAndArgs` (part_013 lines 352-363): the map's keys in
ascending order, with the values in matching order. -/
def toSortedColsAndArgs (data : List (String × GoVal)) : List String × List GoVal :=
  (sortStrings (dedupKeys (data.map Prod.fst)),
    (sortStrings (dedupKeys (data.map Prod.fst))).map
      (fun c => (alookup data c).getD .vnull))

/-- `UpdateByPKAndTenant` (part_013 lines 255-303). `schema.nowTime`
stands for `schema.Now().UTC()`; a `RowsAffected` error makes Go skip
the zero-row check and return success. -/
def UpdateByPKAndTenant (db : Execer) (schema : Schema) (pk : GoVal)
    (tenantCol : String) (tenantID : Int) (payload : List (String × GoVal)) :
    Except AppError Unit :=
  let tenantCol := goTrim tenantCol
  if tenantCol = "" then .error (.validation [("tenant", "tenant column required")])
  else
    match schema.normalizePayload payload with
    | .error v => .error v
    | .ok data₀ =>
        let data :=
          if schema.timestamps ∧ schema.hasColumn "updated_at" then
            minsert data₀ "updated_at" (.vtime schema.nowTime)
          else data₀
        let ca := toSortedColsAndArgs data
        if ca.1.isEmpty then .error (.validation [("payload", "no fillable fields provided")])
        else
          let setParts := ca.1.enum.map (fun ic => ic.2 ++ " = $" ++ toString (ic.1 + 1))
          let args := ca.2 ++ [pk, .vint tenantID]
          let query :=
            "UPDATE " ++ schema.table ++ " SET " ++ goJoin setParts "," ++
              " WHERE " ++ schema.primaryKey ++ " = $" ++ toString (args.length - 1) ++
              " AND " ++ tenantCol ++ " = $" ++ toString args.length
          match db query args with
          | .error e => .error (.dbError e)
          | .ok (.error _) => .ok ()
          | .ok (.ok affected) =>
              if affected = 0 then .error (.notFound schema.table pk) else .ok ()

/-- `DeleteByPKAndTenant` (part_013 lines 334-350). -/
def DeleteByPKAndTenant (db : Execer) (schema : Schema) (pk : GoVal)
    (tenantCol : String) (tenantID : Int) : Except AppError Unit :=
  let tenantCol := goTrim tenantCol
  if tenantCol = "" then .error (.validation [("tenant", "tenant column required")])
  else
    let query :=
      "DELETE FROM " ++ schema.table ++ " WHERE " ++ schema.primaryKey ++
        " = $1 AND " ++ tenantCol ++ " = $2"
    match db query [pk, .vint tenantID] with
    | .error e => .error (.dbError e)
    | .ok (.error _) => .ok ()
    | .ok (.ok affected) =>
        if affected = 0 then .error (.notFound schema.table pk) else .ok ()

end Eloquent

namespace QueryDsl

open MyLab MyLab.Eloquent

/-! ## Query specifications (part_023) -/

/-- `ColumnRef` (part_023 lines 344-347). -/
structure ColumnRef where
  aliasName : String
  column : String
deriving DecidableEq, Repr

/-- `ColumnRef.String()` (part_023 lines 372-377). -/
def ColumnRef.str (c : ColumnRef) : String :=
  if c.aliasName = "" then c.column else c.aliasName ++ "." ++ c.column

/-- `JoinOn` (part_023 lines 355-359). -/
structure JoinOn where
  left : ColumnRef
  op : String
  right : ColumnRef
deriving DecidableEq, Repr

/-- `JoinSpec` (part_023 lines 349-353). -/
structure JoinSpec where
  table : String
  aliasName : String
  onCond : JoinOn
deriving DecidableEq, Repr

/-- `WhereSpec` (part_023 lines 361-365). -/
structure WhereSpec where
  left : ColumnRef
  op : String
  value : GoVal
deriving DecidableEq, Repr

/-- `OrderBySpec` (part_023 lines 367-370). -/
structure OrderBySpec where
  field : ColumnRef
  dir : String
deriving DecidableEq, Repr

/-- `QuerySpec` (part_023 lines 334-342); `wheres` is the Go `Where`
field (a Lean keyword). -/
structure QuerySpec where
  fromTable : String
  fromAlias : String
  select : List ColumnRef
  joins : List JoinSpec
  wheres : List WhereSpec
  orderBy : List OrderBySpec
  limit : Int
deriving DecidableEq, Repr

/-- `Registry` (part_024): table name → schema thunk; the thunk's
current value is stored directly. -/
def Registry : Type := List (String × Schema)

/-- `Registry.Schema` (part_024 lines 21-27). -/
def regSchema (reg : Registry) (table : String) : Option Schema :=
  alookup reg table

/-- `BuiltQuery` (part_026 lines 11-14). -/
structure BuiltQuery where
  sql : String
  args : List GoVal
deriving DecidableEq, Repr

/-! ## Registry-backed builder (`BuildSQL`, part_026) -/

/-- The default join alias (part_026 lines 48-51, part_025 lines
137-139): the trimmed alias, or the (untrimmed) table name when
blank. -/
def joinAlias (j : JoinSpec) : String :=
  if goTrim j.aliasName = "" then j.table else goTrim j.aliasName

/-- The join alias of the introspection registration loop (part_025
lines 56-63): the trimmed alias, or the trimmed table name when
blank. -/
def joinAliasI (j : JoinSpec) : String :=
  if goTrim j.aliasName = "" then goTrim j.table else goTrim j.aliasName

/-- The join-registration loop of `BuildSQL` (part_026 lines 44-61),
accumulating the alias→table and alias→schema maps in insertion
order. -/
def registerJoins (reg : Registry) :
    List (Nat × JoinSpec) → List (String × String) → List (String × Schema) →
    Except AppError (List (String × String) × List (String × Schema))
  | [], aliasToTable, schemaByAlias => .ok (aliasToTable, schemaByAlias)
  | (i, j) :: rest, aliasToTable, schemaByAlias =>
      if goTrim j.table = "" then
        .error (.validation [("joins[" ++ toString i ++ "].table", "required")])
      else
        if (alookup aliasToTable (joinAlias j)).isSome then
          .error (.validation [("join", "duplicate alias")])
        else
          match regSchema reg j.table with
          | none => .error (.validation [("joins[" ++ toString i ++ "].table", "unknown")])
          | some s =>
              registerJoins reg rest (aliasToTable ++ [(joinAlias j, j.table)])
                (schemaByAlias ++ [(joinAlias j, s)])

/-- The `validateCol` closure of `BuildSQL` (part_026 lines 63-81). -/
def validateColReg (baseAlias : String) (schemaByAlias : List (String × Schema))
    (ref : ColumnRef) (fieldKey : String) : Except AppError ColumnRef :=
  let al := goTrim ref.aliasName
  let col := goTrim ref.column
  if col = "" then .error (.validation [(fieldKey, "invalid column")])
  else
    let al := if al = "" then baseAlias else al
    match alookup schemaByAlias al with
    | none => .error (.validation [(fieldKey, "unknown table alias")])
    | some schema =>
        if ¬ schema.HasColumn col then .error (.validation [(fieldKey, "unknown field")])
        else .ok ⟨al, col⟩

/-- The select-list loop of `BuildSQL` (part_026 lines 87-96). -/
def buildSelectList (validate : ColumnRef → String → Except AppError ColumnRef) :
    List (Nat × ColumnRef) → Except AppError (List String)
  | [] => .ok []
  | (i, raw) :: rest =>
      match validate raw ("select[" ++ toString i ++ "]") with
      | .error v => .error v
      | .ok ref =>
          match buildSelectList validate rest with
          | .error v => .error v
          | .ok cols => .ok (ref.str :: cols)

/-- The join-clause loop of `BuildSQL` (part_026 lines 102-120); the
operator is compared untrimmed here. -/
def buildJoinParts (validate : ColumnRef → String → Except AppError ColumnRef) :
    List (Nat × JoinSpec) → Except AppError (List String)
  | [] => .ok []
  | (i, j) :: rest =>
      match validate j.onCond.left ("joins[" ++ toString i ++ "].on.left") with
      | .error v => .error v
      | .ok left =>
          match validate j.onCond.right ("joins[" ++ toString i ++ "].on.right") with
          | .error v => .error v
          | .ok right =>
              if j.onCond.op ≠ "=" then
                .error (.validation
                  [("joins[" ++ toString i ++ "].on.op",
                    "only " ++ quoteStr ++ "=" ++ quoteStr ++ " supported")])
              else
                match buildJoinParts validate rest with
                | .error v => .error v
                | .ok parts =>
                    .ok (("JOIN " ++ j.table ++ " AS " ++ joinAlias j ++ " ON " ++
                      left.str ++ " = " ++ right.str) :: parts)

/-- The tenant-enforcement loop (part_026 lines 126-130): one
`alias.company_id = $n` predicate per alias whose schema has the tenant
column, binding the caller's tenant identifier. -/
def tenantWhereParts (companyID : Int) :
    List (String × Schema) → SqlBuilder → List String × SqlBuilder
  | [], b => ([], b)
  | (al, schema) :: rest, b =>
      if schema.HasColumn "company_id" then
        ((al ++ ".company_id = " ++ (b.push (.vint companyID)).1) ::
            (tenantWhereParts companyID rest (b.push (.vint companyID)).2).1,
          (tenantWhereParts companyID rest (b.push (.vint companyID)).2).2)
      else tenantWhereParts companyID rest b

/-- The predicate loop of `BuildSQL` (part_026 lines 136-150): the five
comparison operators map 1:1; `like` becomes `ILIKE` with the value
always wrapped in `%` wildcards. -/
def buildWhereParts (validate : ColumnRef → String → Except AppError ColumnRef) :
    List (Nat × WhereSpec) → SqlBuilder → Except AppError (List String × SqlBuilder)
  | [], b => .ok ([], b)
  | (i, w) :: rest, b =>
      match validate w.left ("where[" ++ toString i ++ "].field") with
      | .error v => .error v
      | .ok left =>
          if goLower (goTrim w.op) = "=" ∨ goLower (goTrim w.op) = "<=" ∨
              goLower (goTrim w.op) = ">=" ∨ goLower (goTrim w.op) = "<" ∨
              goLower (goTrim w.op) = ">" then
            match buildWhereParts validate rest (b.push w.value).2 with
            | .error v => .error v
            | .ok (parts, b3) =>
                .ok ((left.str ++ " " ++ goLower (goTrim w.op) ++ " " ++
                  (b.push w.value).1) :: parts, b3)
          else if goLower (goTrim w.op) = "like" then
            match buildWhereParts validate rest
                (b.push (.vstr ("%" ++ goSprint w.value ++ "%"))).2 with
            | .error v => .error v
            | .ok (parts, b3) =>
                .ok ((left.str ++ " ILIKE " ++
                  (b.push (.vstr ("%" ++ goSprint w.value ++ "%"))).1) :: parts, b3)
          else .error (.validation [("where[" ++ toString i ++ "].op", "unsupported operator")])

/-- The order-by direction normalization of the query builders
(part_026 lines 161-163): uppercased, defaulting to `ASC` when
blank. -/
def orderDirUpper (dir : String) : String :=
  if goUpper (goLower (goTrim dir)) = "" then "ASC" else goUpper (goLower (goTrim dir))

/-- The order-by loop of `BuildSQL` (part_026 lines 154-169). -/
def buildOrderParts (validate : ColumnRef → String → Except AppError ColumnRef) :
    List (Nat × OrderBySpec) → Except AppError (List String)
  | [] => .ok []
  | (i, ob) :: rest =>
      match validate ob.field ("order_by[" ++ toString i ++ "].field") with
      | .error v => .error v
      | .ok field =>
          if orderDirUpper ob.dir ≠ "ASC" ∧ orderDirUpper ob.dir ≠ "DESC" then
            .error (.validation [("order_by[" ++ toString i ++ "].dir", "must be asc or desc")])
          else
            match buildOrderParts validate rest with
            | .error v => .error v
            | .ok parts => .ok ((field.str ++ " " ++ orderDirUpper ob.dir) :: parts)

/-- The base alias (part_026 lines 35-38, part_025 lines 44-47): the
trimmed `FromAlias`, or the table name when blank. -/
def baseAliasOf (spec : QuerySpec) : String :=
  if goTrim spec.fromAlias = "" then spec.fromTable else goTrim spec.fromAlias

/-- `BuildSQL` (part_026 lines 19-190): validate the spec against the
registry and emit parameterized SQL with the injected tenant
predicates. The `Option` parameters are the Go nil pointers. -/
def BuildSQL (reg? : Option Registry) (companyID : Int) (spec? : Option QuerySpec) :
    Except AppError BuiltQuery :=
  if companyID ≤ 0 then .error (.validation [("company_id", "invalid")])
  else
    match spec? with
    | none => .error (.validation [("query", "required")])
    | some spec =>
        match reg? with
        | none => .error (.validation [("query", "registry missing")])
        | some reg =>
            match regSchema reg spec.fromTable with
            | none => .error (.validation [("table", "unknown")])
            | some baseSchema =>
                match registerJoins reg spec.joins.enum [(baseAliasOf spec, spec.fromTable)]
                    [(baseAliasOf spec, baseSchema)] with
                | .error v => .error v
                | .ok (_aliasToTable, schemaByAlias) =>
                    let validate := validateColReg (baseAliasOf spec) schemaByAlias
                    match
                      (if spec.select.length > 0 then
                        (buildSelectList validate spec.select.enum).map (goJoin · ",")
                      else .ok "*") with
                    | .error v => .error v
                    | .ok selectSQL =>
                        let fromSQL := spec.fromTable ++ " AS " ++ baseAliasOf spec
                        match buildJoinParts validate spec.joins.enum with
                        | .error v => .error v
                        | .ok joinParts =>
                            let tb := tenantWhereParts companyID schemaByAlias ⟨[]⟩
                            if ¬ baseSchema.HasColumn "company_id" then
                              .error (.validation
                                [("company_id",
                                  "schema does not support tenant filter (company_id missing)")])
                            else
                              match buildWhereParts validate spec.wheres.enum tb.2 with
                              | .error v => .error v
                              | .ok (userParts, b2) =>
                                  match
                                    (if spec.orderBy.length > 0 then
                                      (buildOrderParts validate spec.orderBy.enum).map
                                        (fun ps => " ORDER BY " ++ goJoin ps ",")
                                    else .ok "") with
                                  | .error v => .error v
                                  | .ok orderSQL =>
                                      if spec.limit > 0 then
                                        .ok ⟨"SELECT " ++ selectSQL ++ " FROM " ++ fromSQL ++
                                            " " ++ goJoin joinParts " " ++ " WHERE " ++
                                            goJoin (tb.1 ++ userParts) " AND " ++ orderSQL ++
                                            (" LIMIT " ++ (b2.push (.vint spec.limit)).1),
                                          (b2.push (.vint spec.limit)).2.args⟩
                                      else
                                        .ok ⟨"SELECT " ++ selectSQL ++ " FROM " ++ fromSQL ++
                                            " " ++ goJoin joinParts " " ++ " WHERE " ++
                                            goJoin (tb.1 ++ userParts) " AND " ++ orderSQL ++ "",
                                          b2.args⟩

/-! ## Table policy (part_027) and identifier safety (part_025) -/

/-- Head character of the identifier pattern `[A-Za-z_]`. -/
def isIdentStart (c : Char) : Bool := c.isAlpha || c = '_'

/-- Tail character of the identifier pattern `[A-Za-z0-9_]`. -/
def isIdentChar (c : Char) : Bool := c.isAlphanum || c = '_'

/-- `isSafeIdent` (part_025 lines 12-17): trimmed, non-empty, matching
`^[A-Za-z_][A-Za-z0-9_]*$`. -/
def isSafeIdent (s : String) : Bool :=
  match (goTrim s).toList with
  | [] => false
  | c :: rest => isIdentStart c && rest.all isIdentChar

/-- `TablePolicy` (part_027 lines 13-18), with the allow/deny sets as
lowercased name lists. -/
structure TablePolicy where
  allowlistMode : Bool
  allowAll : Bool
  allowed : List String
  denied : List String
deriving DecidableEq, Repr

/-- `ParseTablePolicy` (part_027 lines 20-56). -/
def ParseTablePolicy (allowedRaw deniedRaw : String) : TablePolicy :=
  let allowedRaw := goTrim allowedRaw
  let deniedRaw := goTrim deniedRaw
  if allowedRaw ≠ "" then
    let entries := ((goSplitOn allowedRaw ",").map goTrim).filter (fun n => n ≠ "")
    { allowlistMode := true
      allowAll := entries.contains "*"
      allowed := ((entries.filter (fun n => n ≠ "*")).map goLower)
      denied := [] }
  else
    { allowlistMode := false
      allowAll := false
      allowed := []
      denied :=
        if deniedRaw ≠ "" then
          (((goSplitOn deniedRaw ",").map goTrim).filter (fun n => n ≠ "")).map goLower
        else [] }

/-- `TablePolicy.Allows` (part_027 lines 58-71). -/
def TablePolicy.Allows (p : TablePolicy) (table : String) : Bool :=
  let name := goLower (goTrim table)
  if name = "" then false
  else if p.allowlistMode then
    if p.allowAll then true else p.allowed.contains name
  else !(p.denied.contains name)

/-! ## Introspection-backed builder (part_025, part_029) -/

/-- The catalog handle behind `loadTableColumns` (part_029): the raw
`information_schema.columns.column_name` rows for a table name. The
fixed catalog SQL text and the 5-minute `columnsCache` are not
modelled: cache entries are immutable snapshots of the same answer, and
no claim concerns staleness. -/
def IntrospectDB : Type := String → Except String (List String)

/-- `loadTableColumns` (part_029 lines 23-60): lowercase/trim the table
name (empty → empty set) and the returned column names. -/
def loadTableColumns (q : IntrospectDB) (table : String) :
    Except String (List String) :=
  let t := goLower (goTrim table)
  if t = "" then .ok []
  else
    match q t with
    | .error e => .error e
    | .ok raws => .ok (raws.map (fun c => goLower (goTrim c)))

/-- The join-registration loop of `BuildSQLWithIntrospection` (part_025
lines 55-77): identifier and policy checks, then the alias→table map in
insertion order. -/
def registerJoinsI (policy : TablePolicy) :
    List (Nat × JoinSpec) → List (String × String) →
    Except AppError (List (String × String))
  | [], aliasToTable => .ok aliasToTable
  | (i, j) :: rest, aliasToTable =>
      if goTrim j.table = "" then
        .error (.validation [("joins[" ++ toString i ++ "].table", "required")])
      else
        if ¬ isSafeIdent (goTrim j.table) then
          .error (.validation [("joins[" ++ toString i ++ "].table", "invalid")])
        else if ¬ isSafeIdent (joinAliasI j) then
          .error (.validation [("joins[" ++ toString i ++ "].alias", "invalid")])
        else if ¬ policy.Allows (goTrim j.table) then
          .error (.validation [("joins[" ++ toString i ++ "].table", "not allowed")])
        else if (alookup aliasToTable (joinAliasI j)).isSome then
          .error (.validation [("join", "duplicate alias")])
        else registerJoinsI policy rest (aliasToTable ++ [(joinAliasI j, goTrim j.table)])

/-- The per-alias catalog loads (part_025 lines 80-87), in the
alias map's insertion order; a catalog failure propagates unmodified. -/
def loadColumnsByAlias (q : IntrospectDB) :
    List (String × String) → Except AppError (List (String × List String))
  | [] => .ok []
  | (al, table) :: rest =>
      match loadTableColumns q table with
      | .error e => .error (.dbError e)
      | .ok cols =>
          match loadColumnsByAlias q rest with
          | .error v => .error v
          | .ok others => .ok ((al, cols) :: others)

/-- The `validateCol` closure of `BuildSQLWithIntrospection` (part_025
lines 94-114): identifier-pattern checks, then membership of the
lowercased column in the introspected set. -/
def validateColIntro (baseAlias : String) (columnsByAlias : List (String × List String))
    (ref : ColumnRef) (fieldKey : String) : Except AppError ColumnRef :=
  let al₀ := goTrim ref.aliasName
  let col := goTrim ref.column
  let al := if al₀ = "" then baseAlias else al₀
  if ¬ isSafeIdent al then .error (.validation [(fieldKey, "invalid table alias")])
  else if ¬ isSafeIdent col then .error (.validation [(fieldKey, "invalid column")])
  else
    match alookup columnsByAlias al with
    | none => .error (.validation [(fieldKey, "unknown table alias")])
    | some cols =>
        if ¬ cols.contains (goLower col) then
          .error (.validation [(fieldKey, "unknown field")])
        else .ok ⟨al, col⟩

/-- The join-clause loop of `BuildSQLWithIntrospection` (part_025 lines
135-153); the operator is trimmed before the `=` comparison here. -/
def buildJoinPartsI (validate : ColumnRef → String → Except AppError ColumnRef) :
    List (Nat × JoinSpec) → Except AppError (List String)
  | [] => .ok []
  | (i, j) :: rest =>
      match validate j.onCond.left ("joins[" ++ toString i ++ "].on.left") with
      | .error v => .error v
      | .ok left =>
          match validate j.onCond.right ("joins[" ++ toString i ++ "].on.right") with
          | .error v => .error v
          | .ok right =>
              if goTrim j.onCond.op ≠ "=" then
                .error (.validation
                  [("joins[" ++ toString i ++ "].on.op",
                    "only " ++ quoteStr ++ "=" ++ quoteStr ++ " supported")])
              else
                match buildJoinPartsI validate rest with
                | .error v => .error v
                | .ok parts =>
                    .ok (("JOIN " ++ j.table ++ " AS " ++ joinAlias j ++ " ON " ++
                      left.str ++ " = " ++ right.str) :: parts)

/-- The tenant-enforcement loop of `BuildSQLWithIntrospection`
(part_025 lines 159-163), over the introspected column sets. -/
def tenantWherePartsI (companyID : Int) :
    List (String × List String) → SqlBuilder → List String × SqlBuilder
  | [], b => ([], b)
  | (al, cols) :: rest, b =>
      if cols.contains "company_id" then
        ((al ++ ".company_id = " ++ (b.push (.vint companyID)).1) ::
            (tenantWherePartsI companyID rest (b.push (.vint companyID)).2).1,
          (tenantWherePartsI companyID rest (b.push (.vint companyID)).2).2)
      else tenantWherePartsI companyID rest b

/-- `BuildSQLWithIntrospection` (part_025 lines 26-223). -/
def BuildSQLWithIntrospection (q? : Option IntrospectDB) (companyID : Int)
    (spec? : Option QuerySpec) (policy : TablePolicy) : Except AppError BuiltQuery :=
  if companyID ≤ 0 then .error (.validation [("company_id", "invalid")])
  else
    match spec? with
    | none => .error (.validation [("query", "required")])
    | some spec =>
        match q? with
        | none => .error (.validation [("database", "not configured")])
        | some q =>
            if ¬ isSafeIdent spec.fromTable then
              .error (.validation [("table", "invalid")])
            else if ¬ policy.Allows spec.fromTable then
              .error (.validation [("table", "not allowed")])
            else
              if ¬ isSafeIdent (baseAliasOf spec) then
                .error (.validation [("alias", "invalid")])
              else
                match registerJoinsI policy spec.joins.enum
                    [(baseAliasOf spec, spec.fromTable)] with
                | .error v => .error v
                | .ok aliasToTable =>
                    match loadColumnsByAlias q aliasToTable with
                    | .error v => .error v
                    | .ok columnsByAlias =>
                        if ¬ ((alookup columnsByAlias (baseAliasOf spec)).getD []).contains
                            "company_id" then
                          .error (.validation
                            [("company_id",
                              "table does not support tenant filter (company_id missing)")])
                        else
                          let validate := validateColIntro (baseAliasOf spec) columnsByAlias
                          match
                            (if spec.select.length > 0 then
                              (buildSelectList validate spec.select.enum).map (goJoin · ",")
                            else .ok "*") with
                          | .error v => .error v
                          | .ok selectSQL =>
                              let fromSQL := spec.fromTable ++ " AS " ++ baseAliasOf spec
                              match buildJoinPartsI validate spec.joins.enum with
                              | .error v => .error v
                              | .ok joinParts =>
                                  let tb := tenantWherePartsI companyID columnsByAlias ⟨[]⟩
                                  match buildWhereParts validate spec.wheres.enum tb.2 with
                                  | .error v => .error v
                                  | .ok (userParts, b2) =>
                                      match
                                        (if spec.orderBy.length > 0 then
                                          (buildOrderParts validate spec.orderBy.enum).map
                                            (fun ps => " ORDER BY " ++ goJoin ps ",")
                                        else .ok "") with
                                      | .error v => .error v
                                      | .ok orderSQL =>
                                          if (tb.1 ++ userParts).isEmpty then
                                            .error (.validation
                                              [("where", "tenant filter missing")])
                                          else if spec.limit > 0 then
                                            .ok ⟨"SELECT " ++ selectSQL ++ " FROM " ++
                                                fromSQL ++ " " ++ goJoin joinParts " " ++
                                                " WHERE " ++ goJoin (tb.1 ++ userParts)
                                                " AND " ++ orderSQL ++
                                                (" LIMIT " ++ (b2.push (.vint spec.limit)).1),
                                              (b2.push (.vint spec.limit)).2.args⟩
                                          else
                                            .ok ⟨"SELECT " ++ selectSQL ++ " FROM " ++
                                                fromSQL ++ " " ++ goJoin joinParts " " ++
                                                " WHERE " ++ goJoin (tb.1 ++ userParts)
                                                " AND " ++ orderSQL ++ "",
                                              b2.args⟩

/-! ## Restricted query-expression parser (part_028, part_023) -/

/-- `strings.Fields` (ASCII whitespace model). -/
def goFields (s : String) : List String :=
  ((splitByPred Char.isWhitespace s.toList).map String.mk).filter (fun p => p ≠ "")

/-- `parseTableAndAlias` (part_023 lines 379-396): `"name"`,
`"name alias"` or `"name as alias"`. -/
def parseTableAndAlias (raw : String) : Option (String × String) :=
  let s := goTrim raw
  if s = "" then none
  else
    match goFields s with
    | [p] => some (p, p)
    | [p0, p1] => some (p0, p1)
    | [p0, p1, p2] => if goLower p1 = goLower "as" then some (p0, p2) else none
    | _ => none

/-- `parseColumnRef` (part_023 lines 398-411): `col` or `alias.col`. -/
def parseColumnRef (raw : String) : Option ColumnRef :=
  let s := goTrim raw
  if s = "" then none
  else
    match goSplitOn s "." with
    | [p0] => some ⟨"", goTrim p0⟩
    | [p0, p1] => some ⟨goTrim p0, goTrim p1⟩
    | _ => none

/-- First index of a character, `strings.IndexByte`. -/
def charIndexOf (cs : List Char) (c : Char) : Option Nat :=
  cs.findIdx? (fun x => x = c)

/-- A bare token becomes an `int` when `strconv.Atoi` accepts it, else a
string (part_028 lines 196-205). -/
def tokenVal (token : String) : GoVal :=
  match goParseInt64 token with
  | some n => .vint n
  | none => .vstr token

/-- The `parseArgs` loop (part_028 lines 163-225). The fuel is a bound
on the iteration count: every iteration strictly consumes input, so
with fuel exceeding the input length the `0` case is unreachable and
the function equals the source's loop. -/
def parseArgsLoop : Nat → List Char → List GoVal → Option (List GoVal)
  | 0, _, _ => none
  | Nat.succ fuel, s0, args =>
      if s0.isEmpty then some args
      else
        let s := (goTrim (String.mk s0)).toList
        if s.isEmpty then some args
        else if s.head? = some quoteChar then
          let s1 := s.tail
          match charIndexOf s1 quoteChar with
          | none => none
          | some endIdx =>
              let val := String.mk (s1.take endIdx)
              let args := args ++ [GoVal.vstr val]
              let rest := (goTrim (String.mk (s1.drop (endIdx + 1)))).toList
              match rest with
              | [] => parseArgsLoop fuel [] args
              | c :: rr => if c = ',' then parseArgsLoop fuel rr args else none
        else
          match charIndexOf s ',' with
          | none =>
              let token := goTrim (String.mk s)
              if token = "" then parseArgsLoop fuel [] args
              else parseArgsLoop fuel [] (args ++ [tokenVal token])
          | some endIdx =>
              let token := goTrim (String.mk (s.take endIdx))
              let rest := s.drop (endIdx + 1)
              if token = "" then parseArgsLoop fuel rest args
              else parseArgsLoop fuel rest (args ++ [tokenVal token])

/-- `parseArgs` (part_028 lines 163-225): single-quoted string literals
and bare numeric/word tokens, comma separated. -/
def parseArgs (s : String) : Option (List GoVal) :=
  let t := goTrim s
  if t = "" then some []
  else parseArgsLoop (t.length + 2) t.toList []

/-- `parseCall` (part_028 lines 148-161): `name(args)` with the name
before the first `(` and the args before the last `)`. -/
def parseCall (seg : String) : Option (String × List GoVal) :=
  let cs := seg.toList
  match charIndexOf cs '(' with
  | none => none
  | some openIdx =>
      match (cs.reverse.findIdx? (fun x => x = ')')).map (fun k => cs.length - 1 - k) with
      | none => none
      | some closeIdx =>
          if openIdx = 0 ∨ closeIdx ≤ openIdx then none
          else
            let name := goTrim (String.mk (cs.take openIdx))
            let inside := goTrim (String.mk ((cs.drop (openIdx + 1)).take (closeIdx - openIdx - 1)))
            match parseArgs inside with
            | none => none
            | some args => some (name, args)

/-- `asString` (part_028 lines 227-234). -/
def asString : GoVal → String
  | .vstr s => s
  | v => goSprint v

/-- `asInt` (part_028 lines 236-249). -/
def asInt : GoVal → Option Int
  | .vint n => some n
  | .vfloat f => some (floatToInt64 f)
  | .vstr s => goParseInt64 (goTrim s)
  | _ => none

/-- One `method(args)` segment of `ParseLaravelQuery` (part_028 lines
34-137), applied to the accumulated spec. -/
def applySegment (spec : QuerySpec) (i : Nat) (seg : String) : Except AppError QuerySpec :=
  let seg := goTrim seg
  if seg = "" then .ok spec
  else
    match parseCall seg with
    | none => .error (.validation [("laravel_query", "invalid segment " ++ toString i)])
    | some (name, args) =>
        let lname := goLower name
        if lname = "table" then
          if args.length ≠ 1 then .error (.validation [("table", "expects 1 argument")])
          else
            match parseTableAndAlias (asString (args.getD 0 .vnull)) with
            | none => .error (.validation [("table", "invalid")])
            | some ta => .ok { spec with fromTable := ta.1, fromAlias := ta.2 }
        else if lname = "select" then
          if args.isEmpty then .error (.validation [("select", "empty")])
          else
            match args.mapM (fun a => parseColumnRef (asString a)) with
            | none => .error (.validation [("select", "invalid column")])
            | some cols => .ok { spec with select := cols }
        else if lname = "join" then
          if args.length ≠ 4 then .error (.validation [("join", "expects 4 arguments")])
          else
            match parseTableAndAlias (asString (args.getD 0 .vnull)) with
            | none => .error (.validation [("join", "invalid table")])
            | some ta =>
                match parseColumnRef (asString (args.getD 1 .vnull)) with
                | none => .error (.validation [("join", "invalid left")])
                | some left =>
                    let op := goTrim (asString (args.getD 2 .vnull))
                    if op ≠ "=" then
                      .error (.validation
                        [("join", "only " ++ quoteStr ++ "=" ++ quoteStr ++ " supported")])
                    else
                      match parseColumnRef (asString (args.getD 3 .vnull)) with
                      | none => .error (.validation [("join", "invalid right")])
                      | some right =>
                          .ok { spec with
                            joins := spec.joins ++ [⟨ta.1, ta.2, ⟨left, op, right⟩⟩] }
        else if lname = "where" then
          if args.length ≠ 2 ∧ args.length ≠ 3 then
            .error (.validation [("where", "expects 2 or 3 arguments")])
          else
            match parseColumnRef (asString (args.getD 0 .vnull)) with
            | none => .error (.validation [("where", "invalid field")])
            | some left =>
                let opVal :=
                  if args.length = 2 then ("=", args.getD 1 .vnull)
                  else (goLower (goTrim (asString (args.getD 1 .vnull))), args.getD 2 .vnull)
                let op := opVal.1
                if op = "=" ∨ op = "<=" ∨ op = ">=" ∨ op = "<" ∨ op = ">" ∨ op = "like" then
                  .ok { spec with wheres := spec.wheres ++ [⟨left, op, opVal.2⟩] }
                else .error (.validation [("where", "unsupported operator")])
        else if lname = "orderby" then
          if args.length ≠ 2 then .error (.validation [("orderby", "expects 2 arguments")])
          else
            match parseColumnRef (asString (args.getD 0 .vnull)) with
            | none => .error (.validation [("orderby", "invalid field")])
            | some field =>
                let dir := goLower (goTrim (asString (args.getD 1 .vnull)))
                if dir ≠ "asc" ∧ dir ≠ "desc" then
                  .error (.validation [("orderby", "dir must be asc or desc")])
                else .ok { spec with orderBy := spec.orderBy ++ [⟨field, dir⟩] }
        else if lname = "take" then
          if args.length ≠ 1 then .error (.validation [("take", "expects 1 argument")])
          else
            match asInt (args.getD 0 .vnull) with
            | none => .error (.validation [("take", "invalid")])
            | some n =>
                if n ≤ 0 then .error (.validation [("take", "invalid")])
                else .ok { spec with limit := n }
        else .error (.validation [("laravel_query", "unsupported method: " ++ name)])

/-- The segment fold of `ParseLaravelQuery`. -/
def applySegments (spec : QuerySpec) : List (Nat × String) → Except AppError QuerySpec
  | [] => .ok spec
  | (i, seg) :: rest =>
      match applySegment spec i seg with
      | .error v => .error v
      | .ok spec2 => applySegments spec2 rest

/-- The zero `QuerySpec` the parser starts from. -/
def emptySpec : QuerySpec := ⟨"", "", [], [], [], [], 0⟩

/-- `ParseLaravelQuery` (part_028 lines 22-147). `strings.Split` never
returns an empty slice, so the source's `len(segments) == 0` branch is
dead and not modelled. -/
def ParseLaravelQuery (raw : String) : Except AppError QuerySpec :=
  let q := goTrim raw
  if q = "" then .error (.validation [("laravel_query", "required")])
  else
    match applySegments emptySpec (goSplitOn q "->").enum with
    | .error v => .error v
    | .ok spec =>
        if spec.fromTable = "" then .error (.validation [("table", "required")])
        else if spec.fromAlias = "" then .ok { spec with fromAlias := spec.fromTable }
        else .ok spec

end QueryDsl

/-! # Shared lemmas -/

open Eloquent QueryDsl

/-- Everything in `minsert m k v` is `(k, v)` or was already in `m`. -/
theorem mem_minsert {α : Type} {m : List (String × α)} {k : String} {v : α}
    {kv : String × α} (h : kv ∈ minsert m k v) : kv = (k, v) ∨ kv ∈ m := by
  unfold minsert at h
  split at h
  · rcases List.mem_map.mp h with ⟨p, hp, heq⟩
    by_cases hpk : p.1 = k
    · rw [if_pos hpk] at heq
      exact Or.inl heq.symm
    · rw [if_neg hpk] at heq
      exact Or.inr (heq ▸ hp)
  · rcases List.mem_append.mp h with hm | hone
    · exact Or.inr hm
    · exact Or.inl (List.mem_singleton.mp hone)

/-- `minsert` never empties a map. -/
theorem minsert_ne_nil {α : Type} (m : List (String × α)) (k : String) (v : α) :
    minsert m k v ≠ [] := by
  unfold minsert
  split
  · intro hc
    rename_i hfind
    rw [List.map_eq_nil_iff] at hc
    rw [hc] at hfind
    simp [List.find?] at hfind
  · simp

/-- `insertSorted` output is never empty. -/
theorem insertSorted_ne_nil (x : String) (l : List String) : insertSorted x l ≠ [] := by
  cases l with
  | nil => simp [insertSorted]
  | cons y ys =>
      unfold insertSorted
      split <;> simp

/-- `sortStrings` preserves non-emptiness. -/
theorem sortStrings_ne_nil {l : List String} (h : l ≠ []) : sortStrings l ≠ [] := by
  cases l with
  | nil => exact absurd rfl h
  | cons a t => exact insertSorted_ne_nil a (t.foldr insertSorted [])

/-- `dedupKeys` preserves non-emptiness. -/
theorem dedupKeys_ne_nil {l : List String} (h : l ≠ []) : dedupKeys l ≠ [] := by
  cases l with
  | nil => exact absurd rfl h
  | cons a t => simp [dedupKeys, dedupAux]

/-- The fillable/cast fold only emits keys in the fillable set. -/
theorem normalizeStep_fold_fillable (s : Schema) (data : List (String × GoVal))
    (acc : List (String × GoVal) × List (String × String))
    (hacc : ∀ kv ∈ acc.1, s.fillableSet kv.1 = true) :
    ∀ kv ∈ (data.foldl (normalizeStep s) acc).1, s.fillableSet kv.1 = true := by
  induction data generalizing acc with
  | nil => exact hacc
  | cons hd tl ih =>
      refine ih (normalizeStep s acc hd) ?_
      intro kv hkv
      unfold normalizeStep at hkv
      split at hkv
      · rename_i hfill
        split at hkv
        · exact hacc kv hkv
        · rcases mem_minsert hkv with heq | hmem
          · rw [heq]
            exact hfill
          · exact hacc kv hmem
      · exact hacc kv hkv

/-- A successful `normalizePayload` is the value side of the two
folds. -/
theorem normalizePayload_ok_eq {s : Schema} {payload out : List (String × GoVal)}
    (h : s.normalizePayload payload = .ok out) :
    out = ((payload.foldl (aliasStep s) []).foldl (normalizeStep s) ([], [])).1 := by
  simp only [Schema.normalizePayload] at h
  split at h
  · exact absurd h (by simp)
  · cases h
    rfl

/-- With no explicit fillable list, fillability is "known column other
than the primary key". -/
theorem fillableSet_default {s : Schema} (h : s.fillable = []) (c : String) :
    s.fillableSet c = (s.columns.contains c && decide (c ≠ s.primaryKey)) := by
  unfold Schema.fillableSet
  rw [h]
  simp

/-- With an explicit fillable list, fillability is membership in that
list. -/
theorem fillableSet_explicit {s : Schema} (h : s.fillable ≠ []) (c : String) :
    s.fillableSet c = s.fillable.contains c := by
  unfold Schema.fillableSet
  rw [if_pos]
  exact List.length_pos.mpr h

/-! # Claims -/

/-- A shared clock value for concrete runs. -/
def sampleTime : DateTime := ⟨2024, 1, 1, 0, 0, 0, 0, 0⟩

/-- A schema whose explicit fillable list names the primary key and a
column absent from the column list. -/
def fillableDemoSchema : Schema :=
  ⟨"t", "id", ["id", "name", "company_id"], [], ["id", "ghost"], [], false, sampleTime⟩

/-- C5 counterexample: with an explicit fillable list the computed
fillable set can contain the primary-key column, and a normalized
payload can contain a key that is not in the schema's column list —
the source only strips the primary key in the default ("fillable
empty") branch. -/
theorem C5_counterexample :
    fillableDemoSchema.primaryKey = "id" ∧
    fillableDemoSchema.fillableSet "id" = true ∧
    fillableDemoSchema.normalizePayload [("ghost", .vstr "x")] =
      .ok [("ghost", .vstr "x")] ∧
    fillableDemoSchema.columns.contains "ghost" = false := by
  refine ⟨rfl, by decide, by decide, by decide⟩

/-- C5 as amended: when no explicit fillable list is configured, the
fillable set is exactly "all schema columns minus the primary key" —
so it never contains the primary key, and every key of a successfully
normalized payload is a schema column other than the primary key. When
an explicit fillable list is configured, the fillable set is exactly
that list (which the source does not intersect with the columns or
strip of the primary key), and every normalized-payload key comes from
it. -/
theorem C5_amended (s : Schema) :
    (s.fillable = [] →
      s.fillableSet s.primaryKey = false ∧
      (∀ c, s.fillableSet c = true → s.columns.contains c = true ∧ c ≠ s.primaryKey) ∧
      (∀ payload out, s.normalizePayload payload = .ok out →
        ∀ kv ∈ out, s.columns.contains kv.1 = true ∧ kv.1 ≠ s.primaryKey)) ∧
    (s.fillable ≠ [] →
      (∀ c, s.fillableSet c = s.fillable.contains c) ∧
      (∀ payload out, s.normalizePayload payload = .ok out →
        ∀ kv ∈ out, s.fillable.contains kv.1 = true)) := by
  constructor
  · intro hf
    have hchar : ∀ c, s.fillableSet c = true →
        s.columns.contains c = true ∧ c ≠ s.primaryKey := by
      intro c hc
      rw [fillableSet_default hf] at hc
      have h1 : s.columns.contains c = true := by
        cases hcc : s.columns.contains c
        · rw [hcc] at hc
          simp at hc
        · rfl
      have h2 : c ≠ s.primaryKey := by
        intro he
        rw [he] at hc
        simp at hc
      exact ⟨h1, h2⟩
    refine ⟨?_, hchar, ?_⟩
    · rw [fillableSet_default hf]
      simp
    · intro payload out hok kv hkv
      rw [normalizePayload_ok_eq hok] at hkv
      exact hchar kv.1 (normalizeStep_fold_fillable s _ ([], []) (by simp) kv hkv)
  · intro hf
    refine ⟨fillableSet_explicit hf, ?_⟩
    intro payload out hok kv hkv
    rw [normalizePayload_ok_eq hok] at hkv
    have := normalizeStep_fold_fillable s _ ([], []) (by simp) kv hkv
    rwa [fillableSet_explicit hf] at this

/-- C5 witness: the amended theorem at a concrete schema with no
explicit fillable list. -/
theorem C5_witness :
    (Schema.mk "t" "id" ["id", "name"] [] [] [] false sampleTime).fillableSet "id" = false :=
  ((C5_amended (Schema.mk "t" "id" ["id", "name"] [] [] [] false sampleTime)).1 rfl).1

/-- C9 counterexample: the claim says every non-null input outside the
two string sets fails, but a whitespace-only string is treated as "no
value" and succeeds with no per-field error. -/
theorem C9_counterexample :
    castValue [("flag", .bool)] "flag" (.vstr " ") = .ok none ∧
    GoVal.vstr " " ≠ GoVal.vnull ∧
    goLower (goTrim " ") ∉
      (["1", "true", "yes", "y", "0", "false", "no", "n"] : List String) := by
  refine ⟨by decide, by decide, by decide⟩

/-- C9 as amended: under a boolean cast, a native boolean passes
through unchanged; a string whose trimmed, lowercased form is in
{1,true,yes,y} casts to true and one in {0,false,no,n} to false; an
empty or whitespace-only string is treated as absent and succeeds with
no value; every other non-null input fails with the per-field error
"must be a boolean"; null succeeds as no value. -/
theorem C9_amended (casts : List (String × CastType)) (key : String)
    (h : alookup casts key = some .bool) :
    (∀ b, castValue casts key (.vbool b) = .ok (some (.vbool b))) ∧
    castValue casts key .vnull = .ok none ∧
    (∀ s, (goLower (goTrim s) = "1" ∨ goLower (goTrim s) = "true" ∨
        goLower (goTrim s) = "yes" ∨ goLower (goTrim s) = "y") →
      castValue casts key (.vstr s) = .ok (some (.vbool true))) ∧
    (∀ s, (goLower (goTrim s) = "0" ∨ goLower (goTrim s) = "false" ∨
        goLower (goTrim s) = "no" ∨ goLower (goTrim s) = "n") →
      castValue casts key (.vstr s) = .ok (some (.vbool false))) ∧
    (∀ s, goLower (goTrim s) = "" → castValue casts key (.vstr s) = .ok none) ∧
    (∀ s, goLower (goTrim s) ≠ "" →
      ¬ (goLower (goTrim s) = "1" ∨ goLower (goTrim s) = "true" ∨
        goLower (goTrim s) = "yes" ∨ goLower (goTrim s) = "y") →
      ¬ (goLower (goTrim s) = "0" ∨ goLower (goTrim s) = "false" ∨
        goLower (goTrim s) = "no" ∨ goLower (goTrim s) = "n") →
      castValue casts key (.vstr s) = .error "must be a boolean") ∧
    (∀ n, castValue casts key (.vint n) = .error "must be a boolean") ∧
    (∀ f, castValue casts key (.vfloat f) = .error "must be a boolean") ∧
    (∀ t, castValue casts key (.vtime t) = .error "must be a boolean") ∧
    (∀ js, castValue casts key (.vjson js) = .error "must be a boolean") := by
  refine ⟨?_, ?_, ?_, ?_, ?_, ?_, ?_, ?_, ?_, ?_⟩
  · intro b
    simp [castValue, h]
  · simp [castValue]
  · intro s hs
    simp only [castValue, h]
    rcases hs with h1 | h1 | h1 | h1 <;> rw [h1] <;> decide
  · intro s hs
    simp only [castValue, h]
    rcases hs with h1 | h1 | h1 | h1 <;> rw [h1] <;> decide
  · intro s hs
    simp only [castValue, h]
    rw [hs]
    decide
  · intro s hne h1 h2
    simp only [castValue, h]
    rw [if_neg hne, if_neg h1, if_neg h2]
  · intro n
    simp [castValue, h]
  · intro f
    simp [castValue, h]
  · intro t
    simp [castValue, h]
  · intro js
    simp [castValue, h]

/-- C9 witness: the amended theorem at a concrete cast map and
inputs. -/
theorem C9_witness :
    castValue [("f", CastType.bool)] "f" (.vbool true) = .ok (some (.vbool true)) ∧
    castValue [("f", CastType.bool)] "f" (.vstr " YES ") = .ok (some (.vbool true)) :=
  ⟨(C9_amended [("f", .bool)] "f" (by decide)).1 true,
    (C9_amended [("f", .bool)] "f" (by decide)).2.2.1 " YES " (by decide)⟩

/-- C10: all three tenant-enforcing entry points reject a non-positive
tenant identifier with a validation error keyed `company_id`, for every
database handle, schema, registry, policy and request — so no SQL is
built and no statement is issued. -/
theorem C10_nonpositive_tenant (cid : Int) (h : cid ≤ 0) :
    (∀ (q : Querier) (s : Schema) (req : SelectRequest),
      SelectPage q s cid req = .error (.validation [("company_id", "invalid")])) ∧
    (∀ (reg? : Option Registry) (spec? : Option QuerySpec),
      BuildSQL reg? cid spec? = .error (.validation [("company_id", "invalid")])) ∧
    (∀ (db? : Option IntrospectDB) (spec? : Option QuerySpec) (policy : TablePolicy),
      BuildSQLWithIntrospection db? cid spec? policy =
        .error (.validation [("company_id", "invalid")])) := by
  refine ⟨?_, ?_, ?_⟩
  · intro q s req
    unfold SelectPage selectPageQuery
    rw [if_pos h]
  · intro reg? spec?
    unfold BuildSQL
    rw [if_pos h]
  · intro db? spec? policy
    unfold BuildSQLWithIntrospection
    rw [if_pos h]

/-- C10 witness: the theorem at tenant identifier 0 with concrete
arguments. -/
theorem C10_witness :
    SelectPage (fun _ _ => .ok []) fillableDemoSchema 0
        ⟨[], [], [], [], 1, 25⟩ =
      .error (.validation [("company_id", "invalid")]) ∧
    BuildSQL none 0 none = .error (.validation [("company_id", "invalid")]) ∧
    BuildSQLWithIntrospection none 0 none (ParseTablePolicy "" "") =
      .error (.validation [("company_id", "invalid")]) :=
  ⟨(C10_nonpositive_tenant 0 (by decide)).1 _ _ _,
    (C10_nonpositive_tenant 0 (by decide)).2.1 _ _,
    (C10_nonpositive_tenant 0 (by decide)).2.2 _ _ _⟩

/-- The paging values a successful `selectPageQuery` reports are the
clamped request values. -/
theorem selectPageQuery_ok_paging {s : Schema} {cid : Int} {req : SelectRequest}
    {bs : BuiltSelect} (h : selectPageQuery s cid req = .ok bs) :
    bs.page = clampPage req.page ∧ bs.perPage = clampPerPage req.perPage := by
  unfold selectPageQuery at h
  split at h
  · exact absurd h (by simp)
  · split at h
    · exact absurd h (by simp)
    · split at h
      · exact absurd h (by simp)
      · split at h
        · exact absurd h (by simp)
        · split at h
          · exact absurd h (by simp)
          · split at h
            · exact absurd h (by simp)
            · cases h
              exact ⟨rfl, rfl⟩

/-- Inversion of a successful `SelectPage`: the built query succeeded,
the database returned rows, and the result is those rows trimmed to the
page size with the `has_more` flag. -/
theorem SelectPage_ok_inv {q : Querier} {s : Schema} {cid : Int} {req : SelectRequest}
    {res : PageResult} (h : SelectPage q s cid req = .ok res) :
    ∃ bs rows, selectPageQuery s cid req = .ok bs ∧ q bs.sql bs.args = .ok rows ∧
      res.page = bs.page ∧ res.perPage = bs.perPage ∧
      ((rows.length : Int) > bs.perPage →
        res.rows = rows.take bs.perPage.toNat ∧ res.hasMore = true) ∧
      (¬ (rows.length : Int) > bs.perPage → res.rows = rows ∧ res.hasMore = false) := by
  unfold SelectPage at h
  split at h
  · exact absurd h (by simp)
  · rename_i bs hbs
    split at h
    · exact absurd h (by simp)
    · rename_i rows hrows
      split at h
      · rename_i hmore
        cases h
        exact ⟨bs, rows, hbs, hrows, rfl, rfl,
          fun _ => ⟨rfl, rfl⟩, fun hc => absurd hmore hc⟩
      · rename_i hmore
        cases h
        exact ⟨bs, rows, hbs, hrows, rfl, rfl,
          fun hc => absurd hc hmore, fun _ => ⟨rfl, rfl⟩⟩

/-- C7: a successful generic paged select always reports a page size in
[1,200] — a non-positive request falls back to the default 25, a
request above 200 is clamped to 200 — and a page number of at least
1. -/
theorem C7_perPage_clamped (q : Querier) (s : Schema) (cid : Int)
    (req : SelectRequest) (res : PageResult) (h : SelectPage q s cid req = .ok res) :
    1 ≤ res.perPage ∧ res.perPage ≤ 200 ∧
    (req.perPage ≤ 0 → res.perPage = 25) ∧
    (200 < req.perPage → res.perPage = 200) ∧
    1 ≤ res.page := by
  rcases SelectPage_ok_inv h with ⟨bs, rows, hbs, _, hpage, hpp, _, _⟩
  rcases selectPageQuery_ok_paging hbs with ⟨hbp, hbpp⟩
  rw [hpage, hpp, hbp, hbpp]
  unfold clampPage clampPerPage DefaultPerPage MaxPerPage
  refine ⟨?_, ?_, ?_, ?_, ?_⟩ <;> split_ifs <;> omega

/-- C7 witness: the theorem at a concrete request with non-positive
page and page size. -/
theorem C7_witness :
    1 ≤ (25 : Int) ∧ (25 : Int) ≤ 200 ∧
    ((0 : Int) ≤ 0 → (25 : Int) = 25) ∧
    (200 < (0 : Int) → (25 : Int) = 200) ∧
    1 ≤ (1 : Int) := by
  exact C7_perPage_clamped (fun _ _ => .ok []) fillableDemoSchema 9
    ⟨[], [], [], [], 0, 0⟩ ⟨[], 1, 25, false⟩ (by decide)

/-- C3: a tenant-scoped update-by-key or delete-by-key whose statement
the database executes with zero affected rows returns the Not Found
error kind — never a Validation error or an opaque failure — so a
primary key living under another tenant is indistinguishable from a
missing one. -/
theorem C3_zero_rows_not_found (db : Execer) (s : Schema) (pk : GoVal) (tcol : String)
    (tid : Int) (payload data : List (String × GoVal))
    (hdb : ∀ sql args, db sql args = .ok (.ok 0))
    (htc : ¬ goTrim tcol = "")
    (hn : s.normalizePayload payload = .ok data)
    (hne : data ≠ [] ∨ (s.timestamps = true ∧ s.hasColumn "updated_at" = true)) :
    UpdateByPKAndTenant db s pk tcol tid payload = .error (.notFound s.table pk) ∧
    DeleteByPKAndTenant db s pk tcol tid = .error (.notFound s.table pk) := by
  constructor
  · have hdata : (if (s.timestamps : Prop) ∧ s.hasColumn "updated_at" = true then
        minsert data "updated_at" (.vtime s.nowTime) else data) ≠ [] := by
      split
      · exact minsert_ne_nil data "updated_at" (.vtime s.nowTime)
      · rename_i hcond
        rcases hne with hd | hts
        · exact hd
        · exact absurd ⟨hts.1, hts.2⟩ hcond
    have hcols : (toSortedColsAndArgs (if (s.timestamps : Prop) ∧
        s.hasColumn "updated_at" = true then
          minsert data "updated_at" (.vtime s.nowTime) else data)).1 ≠ [] := by
      apply sortStrings_ne_nil
      apply dedupKeys_ne_nil
      intro hc
      exact hdata (List.map_eq_nil_iff.mp hc)
    have hempty : (toSortedColsAndArgs (if (s.timestamps : Prop) ∧
        s.hasColumn "updated_at" = true then
          minsert data "updated_at" (.vtime s.nowTime) else data)).1.isEmpty = false := by
      cases hc : (toSortedColsAndArgs _).1 with
      | nil => exact absurd hc hcols
      | cons a t => rfl
    simp only [UpdateByPKAndTenant, if_neg htc, hn]
    rw [hempty]
    simp only [Bool.false_eq_true, if_false, hdb]
    rfl
  · unfold DeleteByPKAndTenant
    rw [if_neg htc]
    simp only [hdb]
    simp

/-- A database handle whose every execution reports zero affected
rows. -/
def zeroRowsDb : Execer := fun _ _ => .ok (.ok 0)

/-- C3 witness: the theorem at a concrete schema, payload and
zero-affected-rows database. -/
theorem C3_witness :
    UpdateByPKAndTenant zeroRowsDb fillableDemoSchema (.vstr "PS1") "company_id" 99
        [("ghost", .vstr "x")] =
      .error (.notFound "t" (.vstr "PS1")) ∧
    DeleteByPKAndTenant zeroRowsDb fillableDemoSchema (.vstr "PS1") "company_id" 99 =
      .error (.notFound "t" (.vstr "PS1")) :=
  C3_zero_rows_not_found zeroRowsDb fillableDemoSchema (.vstr "PS1") "company_id" 99
    [("ghost", .vstr "x")] [("ghost", .vstr "x")]
    (fun _ _ => rfl) (by decide) (by decide) (Or.inl (by decide))

/-- The limit and offset a successful `selectPageQuery` binds are the
final two positional arguments: `perPage + 1` and
`(page - 1) * perPage`. -/
theorem selectPageQuery_ok_limit_offset {s : Schema} {cid : Int} {req : SelectRequest}
    {bs : BuiltSelect} (h : selectPageQuery s cid req = .ok bs) :
    ∃ pre core,
      bs.args = pre ++ [.vint (bs.perPage + 1), .vint ((bs.page - 1) * bs.perPage)] ∧
      bs.sql = core ++ " LIMIT " ++ ("$" ++ toString (pre.length + 1)) ++ " OFFSET " ++
        ("$" ++ toString (pre.length + 2)) := by
  unfold selectPageQuery at h
  split at h
  · exact absurd h (by simp)
  · split at h
    · exact absurd h (by simp)
    · split at h
      · exact absurd h (by simp)
      · split at h
        · exact absurd h (by simp)
        · split at h
          · exact absurd h (by simp)
          · rename_i pr hlike
            split at h
            · exact absurd h (by simp)
            · cases h
              simp only [SqlBuilder.arg, SqlBuilder.push, List.length_append,
                List.length_cons, List.length_nil, List.append_assoc,
                List.singleton_append]
              exact ⟨pr.args, _, rfl, rfl⟩

/-- C8: when the built page query succeeds and the database returns
rows, the paged select succeeds; the bound limit is `perPage + 1` and
the bound offset `(page - 1) * perPage` (the last two arguments of the
emitted query); the result is the returned rows trimmed to `perPage`,
`has_more` is set exactly when the database returned more than
`perPage` rows, and the result never exceeds `perPage` rows. -/
theorem C8_overfetch_trim (q : Querier) (s : Schema) (cid : Int) (req : SelectRequest)
    (bs : BuiltSelect) (rows : List Row)
    (h1 : selectPageQuery s cid req = .ok bs)
    (h2 : q bs.sql bs.args = .ok rows) :
    ∃ res, SelectPage q s cid req = .ok res ∧
      res.page = bs.page ∧ res.perPage = bs.perPage ∧
      (∃ pre core,
        bs.args = pre ++ [.vint (bs.perPage + 1), .vint ((bs.page - 1) * bs.perPage)] ∧
        bs.sql = core ++ " LIMIT " ++ ("$" ++ toString (pre.length + 1)) ++ " OFFSET " ++
          ("$" ++ toString (pre.length + 2))) ∧
      res.rows = (if (rows.length : Int) > bs.perPage then rows.take bs.perPage.toNat
        else rows) ∧
      res.hasMore = decide ((rows.length : Int) > bs.perPage) ∧
      (res.rows.length : Int) ≤ bs.perPage := by
  have hpp1 : 1 ≤ bs.perPage := by
    rw [(selectPageQuery_ok_paging h1).2]
    unfold clampPerPage DefaultPerPage MaxPerPage
    split_ifs <;> omega
  simp only [SelectPage, h1, h2]
  split
  · rename_i hmore
    refine ⟨_, rfl, rfl, rfl, selectPageQuery_ok_limit_offset h1, rfl, ?_, ?_⟩
    · simp [hmore]
    · have := List.length_take_le bs.perPage.toNat rows
      simp only
      omega
  · rename_i hmore
    refine ⟨_, rfl, rfl, rfl, selectPageQuery_ok_limit_offset h1, rfl, ?_, ?_⟩
    · simp [hmore]
    · simp only
      omega

/-- A two-column tenant schema for concrete paging runs. -/
def pagingSchema : Schema := ⟨"t", "id", ["id", "company_id"], [], [], [], false, sampleTime⟩

/-- Three matching rows, as a database honoring `LIMIT 3` returns
them. -/
def threeRows : List Row := [[("id", .vint 1)], [("id", .vint 2)], [("id", .vint 3)]]

/-- A database handle holding three matching rows. -/
def threeRowDb : Querier := fun _ _ => .ok threeRows

/-- C8 witness: the theorem at `per_page = 2` against three matching
rows — two rows come back and `has_more` is set. -/
theorem C8_witness :
    ∃ res, SelectPage threeRowDb pagingSchema 7 ⟨[], [], [], [], 1, 2⟩ = .ok res ∧
      res.page = (BuiltSelect.mk "SELECT id,company_id FROM t WHERE company_id = $1 LIMIT $2 OFFSET $3"
        [.vint 7, .vint 3, .vint 0] 1 2).page ∧
      res.perPage = (BuiltSelect.mk "SELECT id,company_id FROM t WHERE company_id = $1 LIMIT $2 OFFSET $3"
        [.vint 7, .vint 3, .vint 0] 1 2).perPage ∧
      (∃ pre core,
        (BuiltSelect.mk "SELECT id,company_id FROM t WHERE company_id = $1 LIMIT $2 OFFSET $3"
            [.vint 7, .vint 3, .vint 0] 1 2).args =
          pre ++ [.vint ((BuiltSelect.mk "SELECT id,company_id FROM t WHERE company_id = $1 LIMIT $2 OFFSET $3"
            [.vint 7, .vint 3, .vint 0] 1 2).perPage + 1),
            .vint (((BuiltSelect.mk "SELECT id,company_id FROM t WHERE company_id = $1 LIMIT $2 OFFSET $3"
              [.vint 7, .vint 3, .vint 0] 1 2).page - 1) *
              (BuiltSelect.mk "SELECT id,company_id FROM t WHERE company_id = $1 LIMIT $2 OFFSET $3"
                [.vint 7, .vint 3, .vint 0] 1 2).perPage)] ∧
        (BuiltSelect.mk "SELECT id,company_id FROM t WHERE company_id = $1 LIMIT $2 OFFSET $3"
            [.vint 7, .vint 3, .vint 0] 1 2).sql =
          core ++ " LIMIT " ++ ("$" ++ toString (pre.length + 1)) ++ " OFFSET " ++
            ("$" ++ toString (pre.length + 2))) ∧
      res.rows = (if ((threeRows.length : Int) >
          (BuiltSelect.mk "SELECT id,company_id FROM t WHERE company_id = $1 LIMIT $2 OFFSET $3"
            [.vint 7, .vint 3, .vint 0] 1 2).perPage) then
        threeRows.take (BuiltSelect.mk "SELECT id,company_id FROM t WHERE company_id = $1 LIMIT $2 OFFSET $3"
          [.vint 7, .vint 3, .vint 0] 1 2).perPage.toNat else threeRows) ∧
      res.hasMore = decide ((threeRows.length : Int) >
        (BuiltSelect.mk "SELECT id,company_id FROM t WHERE company_id = $1 LIMIT $2 OFFSET $3"
          [.vint 7, .vint 3, .vint 0] 1 2).perPage) ∧
      (res.rows.length : Int) ≤
        (BuiltSelect.mk "SELECT id,company_id FROM t WHERE company_id = $1 LIMIT $2 OFFSET $3"
          [.vint 7, .vint 3, .vint 0] 1 2).perPage :=
  C8_overfetch_trim threeRowDb pagingSchema 7 ⟨[], [], [], [], 1, 2⟩
    (BuiltSelect.mk "SELECT id,company_id FROM t WHERE company_id = $1 LIMIT $2 OFFSET $3"
      [.vint 7, .vint 3, .vint 0] 1 2) threeRows (by decide) rfl

/-- The claim's scenario expression `table('m')->where('bad_col','=','1')`. -/
def scenarioQuery : String :=
  "table(" ++ quoteStr ++ "m" ++ quoteStr ++ ")->where(" ++ quoteStr ++ "bad_col" ++
    quoteStr ++ "," ++ quoteStr ++ "=" ++ quoteStr ++ "," ++ quoteStr ++ "1" ++
    quoteStr ++ ")"

/-- A registered table `m` without a `bad_col` column. -/
def scenarioRegistry : Registry :=
  [("m", ⟨"m", "id", ["id", "company_id"], [], [], [], false, sampleTime⟩)]

/-- The scenario run end to end: parse the expression, then build
tenant-enforced SQL against the registry under tenant 1. -/
def scenarioResult : Except AppError BuiltQuery :=
  match ParseLaravelQuery scenarioQuery with
  | .ok spec => BuildSQL (some scenarioRegistry) 1 (some spec)
  | .error e => .error e

/-- C4 counterexample: the scenario fails as required, but its error
map is keyed by the positional path `where[0].field`, not by the text
`bad_col` the caller typed. -/
theorem C4_counterexample :
    scenarioResult = .error (.validation [("where[0].field", "unknown field")]) ∧
    ("bad_col", "unknown field") ∉ [(("where[0].field" : String), ("unknown field" : String))] := by
  refine ⟨by decide, by decide⟩

/-- An enumerated entry's index is below the offset plus the list
length. -/
theorem enumFrom_fst_lt {α : Type} :
    ∀ {n : Nat} {l : List α} {iw : Nat × α}, iw ∈ l.enumFrom n → iw.1 < n + l.length := by
  intro n l
  induction l generalizing n with
  | nil => intro iw h; simp [List.enumFrom] at h
  | cons a t ih =>
      intro iw h
      simp only [List.enumFrom] at h
      rcases List.mem_cons.mp h with rfl | hmem
      · show n < n + (a :: t).length
        simp only [List.length_cons]
        omega
      · have := ih hmem
        simp only [List.length_cons]
        omega

/-- An enumerated entry's index is below the list length. -/
theorem enum_fst_lt {α : Type} {l : List α} {iw : Nat × α} (h : iw ∈ l.enum) :
    iw.1 < l.length := by
  have h2 : iw ∈ l.enumFrom 0 := h
  have := enumFrom_fst_lt h2
  omega

/-- `validateCol` of the query-expression builder fails keyed exactly
by the `fieldKey` it was handed, with one of its three messages. -/
theorem validateColReg_error_key {base : String} {env : List (String × Schema)}
    {ref : ColumnRef} {fk : String} {e : AppError}
    (h : validateColReg base env ref fk = .error e) :
    ∃ msg, (msg = "invalid column" ∨ msg = "unknown table alias" ∨
      msg = "unknown field") ∧ e = .validation [(fk, msg)] := by
  simp only [validateColReg] at h
  split at h
  · cases h
    exact ⟨_, Or.inl rfl, rfl⟩
  · split at h
    · cases h
      exact ⟨_, Or.inr (Or.inl rfl), rfl⟩
    · split at h
      · cases h
        exact ⟨_, Or.inr (Or.inr rfl), rfl⟩
      · exact absurd h (by simp)

/-- Every failure of the builder's select loop is keyed by the
positional path `select[i]` of the offending clause. -/
theorem buildSelectList_error_key
    {validate : ColumnRef → String → Except AppError ColumnRef} {P : String → Prop}
    (hv : ∀ {ref fk e}, validate ref fk = .error e →
      ∃ msg, P msg ∧ e = .validation [(fk, msg)]) :
    ∀ {l : List (Nat × ColumnRef)} {e : AppError},
      buildSelectList validate l = .error e →
      ∃ iw ∈ l, ∃ msg, P msg ∧
        e = .validation [("select[" ++ toString (iw : Nat × ColumnRef).1 ++ "]", msg)] := by
  intro l
  induction l with
  | nil => intro e h; simp [buildSelectList] at h
  | cons hd tl ih =>
      intro e h
      rw [buildSelectList] at h
      split at h
      · rename_i v hval
        cases h
        obtain ⟨msg, hP, he⟩ := hv hval
        exact ⟨hd, List.mem_cons_self _ _, msg, hP, he⟩
      · split at h
        · rename_i v hrec
          cases h
          obtain ⟨iw, hiw, msg, hP, he⟩ := ih hrec
          exact ⟨iw, List.mem_cons_of_mem _ hiw, msg, hP, he⟩
        · exact absurd h (by simp)

/-- Every failure of the builder's where loop is keyed by the
positional path `where[i].field` or `where[i].op` of the offending
clause. -/
theorem buildWhereParts_error_key
    {validate : ColumnRef → String → Except AppError ColumnRef} {P : String → Prop}
    (hv : ∀ {ref fk e}, validate ref fk = .error e →
      ∃ msg, P msg ∧ e = .validation [(fk, msg)]) :
    ∀ {l : List (Nat × WhereSpec)} {b : SqlBuilder} {e : AppError},
      buildWhereParts validate l b = .error e →
      ∃ iw ∈ l,
        (∃ msg, P msg ∧ e = .validation
          [("where[" ++ toString (iw : Nat × WhereSpec).1 ++ "].field", msg)]) ∨
        e = .validation [("where[" ++ toString iw.1 ++ "].op", "unsupported operator")] := by
  intro l
  induction l with
  | nil => intro b e h; simp [buildWhereParts] at h
  | cons hd tl ih =>
      intro b e h
      rw [buildWhereParts] at h
      split at h
      · rename_i v hval
        cases h
        obtain ⟨msg, hP, he⟩ := hv hval
        exact ⟨hd, List.mem_cons_self _ _, Or.inl ⟨msg, hP, he⟩⟩
      · split at h
        · split at h
          · rename_i v hrec
            cases h
            obtain ⟨iw, hiw, hcase⟩ := ih hrec
            exact ⟨iw, List.mem_cons_of_mem _ hiw, hcase⟩
          · exact absurd h (by simp)
        · split at h
          · split at h
            · rename_i v hrec
              cases h
              obtain ⟨iw, hiw, hcase⟩ := ih hrec
              exact ⟨iw, List.mem_cons_of_mem _ hiw, hcase⟩
            · exact absurd h (by simp)
          · cases h
            exact ⟨hd, List.mem_cons_self _ _, Or.inr rfl⟩

/-- Every failure of the builder's order-by loop is keyed by the
positional path `order_by[i].field` or `order_by[i].dir` of the
offending clause. -/
theorem buildOrderParts_error_key
    {validate : ColumnRef → String → Except AppError ColumnRef} {P : String → Prop}
    (hv : ∀ {ref fk e}, validate ref fk = .error e →
      ∃ msg, P msg ∧ e = .validation [(fk, msg)]) :
    ∀ {l : List (Nat × OrderBySpec)} {e : AppError},
      buildOrderParts validate l = .error e →
      ∃ iw ∈ l,
        (∃ msg, P msg ∧ e = .validation
          [("order_by[" ++ toString (iw : Nat × OrderBySpec).1 ++ "].field", msg)]) ∨
        e = .validation
          [("order_by[" ++ toString iw.1 ++ "].dir", "must be asc or desc")] := by
  intro l
  induction l with
  | nil => intro e h; simp [buildOrderParts] at h
  | cons hd tl ih =>
      intro e h
      rw [buildOrderParts] at h
      split at h
      · rename_i v hval
        cases h
        obtain ⟨msg, hP, he⟩ := hv hval
        exact ⟨hd, List.mem_cons_self _ _, Or.inl ⟨msg, hP, he⟩⟩
      · split at h
        · cases h
          exact ⟨hd, List.mem_cons_self _ _, Or.inr rfl⟩
        · split at h
          · rename_i v hrec
            cases h
            obtain ⟨iw, hiw, hcase⟩ := ih hrec
            exact ⟨iw, List.mem_cons_of_mem _ hiw, hcase⟩
          · exact absurd h (by simp)

/-- Every failure of the generic equality-filter loop is keyed by the
caller's original key text, for a key whose resolved column is not in
the schema. -/
theorem applyEqFilters_error_key {s : Schema} {m : List (String × GoVal)} :
    ∀ {ks : List String} {b : SqlBuilder} {e : AppError},
      applyEqFilters s m ks b = .error e →
      ∃ k ∈ ks, e = .validation [(k, "unknown field")] ∧
        s.hasColumn (resolveAlias s k) = false := by
  intro ks
  induction ks with
  | nil => intro b e h; simp [applyEqFilters] at h
  | cons k rest ih =>
      intro b e h
      rw [applyEqFilters] at h
      split at h
      · rename_i hcond
        cases h
        exact ⟨k, List.mem_cons_self _ _, rfl, by simpa using hcond⟩
      · split at h
        · rename_i v hrec
          cases h
          obtain ⟨k2, hk2, he, hc⟩ := ih hrec
          exact ⟨k2, List.mem_cons_of_mem _ hk2, he, hc⟩
        · exact absurd h (by simp)

/-- Every failure of the generic like-filter loop is keyed by the
caller's original key text, for a key whose resolved column is not in
the schema. -/
theorem applyLikeFilters_error_key {s : Schema} {m : List (String × GoVal)} :
    ∀ {ks : List String} {b : SqlBuilder} {e : AppError},
      applyLikeFilters s m ks b = .error e →
      ∃ k ∈ ks, e = .validation [(k, "unknown field")] ∧
        s.hasColumn (resolveAlias s k) = false := by
  intro ks
  induction ks with
  | nil => intro b e h; simp [applyLikeFilters] at h
  | cons k rest ih =>
      intro b e h
      rw [applyLikeFilters] at h
      split at h
      · rename_i hcond
        cases h
        exact ⟨k, List.mem_cons_self _ _, rfl, by simpa using hcond⟩
      · split at h
        · rename_i v hrec
          cases h
          obtain ⟨k2, hk2, he, hc⟩ := ih hrec
          exact ⟨k2, List.mem_cons_of_mem _ hk2, he, hc⟩
        · exact absurd h (by simp)

/-- Fold invariant of the select-normalization loop: every error-map
entry was either there initially or is `(raw, "unknown field")` for a
processed `raw` whose resolved column is not in the schema. -/
theorem selectFold_errs (s : Schema) (P : String × String → Prop) :
    ∀ (l : List String) (st : List String × List (String × String) × List String),
      (∀ pr ∈ st.2.1, P pr) →
      (∀ raw ∈ l, s.hasColumn (goTrim (resolveAlias s raw)) = false →
        P (raw, "unknown field")) →
      ∀ pr ∈ (l.foldl (selectStep s) st).2.1, P pr := by
  intro l
  induction l with
  | nil => intro st hst _ pr hpr; exact hst pr hpr
  | cons raw rest ih =>
      intro st hst hl pr hpr
      rw [List.foldl_cons] at hpr
      refine ih (selectStep s st raw) ?_
        (fun r hr hc => hl r (List.mem_cons_of_mem _ hr) hc) pr hpr
      intro q hq
      simp only [selectStep] at hq
      split at hq
      · exact hst q hq
      · split at hq
        · exact hst q hq
        · split at hq
          · rename_i hcond
            rcases mem_minsert hq with hqe | hmem
            · exact hqe ▸ hl raw (List.mem_cons_self _ _) (by simpa using hcond)
            · exact hst q hmem
          · exact hst q hq

/-- The select-normalization of the generic path fails either because
the requested list normalized to nothing, or with an error map whose
every entry is keyed by the caller's original (pre-resolution) column
text, carries "unknown field", and names a column whose resolved form
is not in the schema. -/
theorem normalizeSelect_error_key {s : Schema} {cols : List String} {e : AppError}
    (h : normalizeSelect s cols = .error e) :
    e = .validation [("select", "empty")] ∨
    ∃ errs, e = .validation errs ∧ errs ≠ [] ∧
      ∀ pr ∈ errs, (pr : String × String).1 ∈ cols ∧ pr.2 = "unknown field" ∧
        s.hasColumn (goTrim (resolveAlias s pr.1)) = false := by
  simp only [normalizeSelect] at h
  split at h
  · exact absurd h (by simp)
  · split at h
    · rename_i hlen
      cases h
      refine Or.inr ⟨_, rfl, ?_, ?_⟩
      · intro hnil
        simp [hnil] at hlen
      · exact selectFold_errs s _ cols ([], [], [])
          (by intro pr hpr; simp at hpr)
          (fun raw hraw hc => ⟨hraw, rfl, hc⟩)
    · split at h
      · cases h
        exact Or.inl rfl
      · exact absurd h (by simp)

/-- Fold invariant of the generic order-by validation loop: every
error-map entry was either there initially or is one of the three
positionally keyed entries of a processed clause. -/
theorem orderFold_errs (s : Schema) (P : String × String → Prop) :
    ∀ (l : List (Nat × OrderBy)) (st : List String × List (String × String)),
      (∀ pr ∈ st.2, P pr) →
      (∀ iob ∈ l,
        P ("order_by[" ++ toString (iob : Nat × OrderBy).1 ++ "].field", "required") ∧
        P ("order_by[" ++ toString iob.1 ++ "].field", "unknown field") ∧
        P ("order_by[" ++ toString iob.1 ++ "].dir", "must be asc or desc")) →
      ∀ pr ∈ (l.foldl (orderByStep s) st).2, P pr := by
  intro l
  induction l with
  | nil => intro st hst _ pr hpr; exact hst pr hpr
  | cons iob rest ih =>
      intro st hst hl pr hpr
      rw [List.foldl_cons] at hpr
      refine ih (orderByStep s st iob) ?_
        (fun r hr => hl r (List.mem_cons_of_mem _ hr)) pr hpr
      intro q hq
      simp only [orderByStep] at hq
      split at hq
      · rcases mem_minsert hq with hqe | hmem
        · exact hqe ▸ (hl iob (List.mem_cons_self _ _)).1
        · exact hst q hmem
      · split at hq
        · rcases mem_minsert hq with hqe | hmem
          · exact hqe ▸ (hl iob (List.mem_cons_self _ _)).2.1
          · exact hst q hmem
        · split at hq
          · rcases mem_minsert hq with hqe | hmem
            · exact hqe ▸ (hl iob (List.mem_cons_self _ _)).2.2
            · exact hst q hmem
          · exact hst q hq

/-- Every failure of the generic path's order-by validation carries an
error map whose every entry is keyed by the positional path
`order_by[i].field` or `order_by[i].dir` of an offending clause. -/
theorem buildOrderBy_error_key {s : Schema} {ob : List OrderBy} {e : AppError}
    (h : buildOrderBy s ob = .error e) :
    ∃ errs, e = .validation errs ∧
      ∀ pr ∈ errs, ∃ i, i < ob.length ∧
        ((pr : String × String) = ("order_by[" ++ toString i ++ "].field", "required") ∨
         pr = ("order_by[" ++ toString i ++ "].field", "unknown field") ∨
         pr = ("order_by[" ++ toString i ++ "].dir", "must be asc or desc")) := by
  simp only [buildOrderBy] at h
  split at h
  · exact absurd h (by simp)
  · split at h
    · cases h
      refine ⟨_, rfl, ?_⟩
      refine orderFold_errs s _ ob.enum ([], []) (by intro pr hpr; simp at hpr) ?_
      intro iob hiob
      have hlt : iob.1 < ob.length := enum_fst_lt hiob
      exact ⟨⟨iob.1, hlt, Or.inl rfl⟩, ⟨iob.1, hlt, Or.inr (Or.inl rfl)⟩,
        ⟨iob.1, hlt, Or.inr (Or.inr rfl)⟩⟩
    · exact absurd h (by simp)

/-- C4 as amended: unknown-column failures carry "unknown field", but
only the generic select path keys them by the caller's original
(pre-resolution) text — its where and like filter loops key the error
by the offending map key, and its select normalization keys every
collected entry by the requested column text; the query-expression
builder's select, where and order-by loops and both order-by
validations key their errors by the positional path of the offending
clause (`select[i]`, `where[i].field`/`where[i].op`,
`order_by[i].field`/`order_by[i].dir`), so the claim's scenario yields
the entry `where[0].field: unknown field`, not `bad_col`. -/
theorem C4_amended :
    (∀ (q : Querier) (s : Schema) (cid : Int) (k : String) (v : GoVal) (p pp : Int),
      0 < cid → s.hasColumn "company_id" = true →
      s.hasColumn (resolveAlias s k) = false →
      SelectPage q s cid ⟨[], [(k, v)], [], [], p, pp⟩ =
        .error (.validation [(k, "unknown field")])) ∧
    (∀ (s : Schema) (m : List (String × GoVal)) (ks : List String) (b : SqlBuilder)
        (e : AppError),
      applyEqFilters s m ks b = .error e →
      ∃ k ∈ ks, e = .validation [(k, "unknown field")] ∧
        s.hasColumn (resolveAlias s k) = false) ∧
    (∀ (s : Schema) (m : List (String × GoVal)) (ks : List String) (b : SqlBuilder)
        (e : AppError),
      applyLikeFilters s m ks b = .error e →
      ∃ k ∈ ks, e = .validation [(k, "unknown field")] ∧
        s.hasColumn (resolveAlias s k) = false) ∧
    (∀ (s : Schema) (cols : List String) (e : AppError),
      normalizeSelect s cols = .error e →
      e = .validation [("select", "empty")] ∨
      ∃ errs, e = .validation errs ∧ errs ≠ [] ∧
        ∀ pr ∈ errs, (pr : String × String).1 ∈ cols ∧ pr.2 = "unknown field" ∧
          s.hasColumn (goTrim (resolveAlias s pr.1)) = false) ∧
    (∀ (s : Schema) (ob : List OrderBy) (e : AppError),
      buildOrderBy s ob = .error e →
      ∃ errs, e = .validation errs ∧
        ∀ pr ∈ errs, ∃ i, i < ob.length ∧
          ((pr : String × String) =
            ("order_by[" ++ toString i ++ "].field", "required") ∨
           pr = ("order_by[" ++ toString i ++ "].field", "unknown field") ∨
           pr = ("order_by[" ++ toString i ++ "].dir", "must be asc or desc"))) ∧
    (∀ (base : String) (env : List (String × Schema)) (l : List ColumnRef)
        (e : AppError),
      buildSelectList (validateColReg base env) l.enum = .error e →
      ∃ i, i < l.length ∧ ∃ msg,
        (msg = "invalid column" ∨ msg = "unknown table alias" ∨
          msg = "unknown field") ∧
        e = .validation [("select[" ++ toString i ++ "]", msg)]) ∧
    (∀ (base : String) (env : List (String × Schema)) (l : List WhereSpec)
        (b : SqlBuilder) (e : AppError),
      buildWhereParts (validateColReg base env) l.enum b = .error e →
      ∃ i, i < l.length ∧
        ((∃ msg, (msg = "invalid column" ∨ msg = "unknown table alias" ∨
            msg = "unknown field") ∧
          e = .validation [("where[" ++ toString i ++ "].field", msg)]) ∨
         e = .validation [("where[" ++ toString i ++ "].op", "unsupported operator")])) ∧
    (∀ (base : String) (env : List (String × Schema)) (l : List OrderBySpec)
        (e : AppError),
      buildOrderParts (validateColReg base env) l.enum = .error e →
      ∃ i, i < l.length ∧
        ((∃ msg, (msg = "invalid column" ∨ msg = "unknown table alias" ∨
            msg = "unknown field") ∧
          e = .validation [("order_by[" ++ toString i ++ "].field", msg)]) ∨
         e = .validation
          [("order_by[" ++ toString i ++ "].dir", "must be asc or desc")])) ∧
    scenarioResult = .error (.validation [("where[0].field", "unknown field")]) := by
  refine ⟨?_, ?_, ?_, ?_, ?_, ?_, ?_, ?_, ?_⟩
  · intro q s cid k v p pp hcid htenant hunknown
    unfold SelectPage selectPageQuery
    rw [if_neg (by omega : ¬ cid ≤ 0)]
    have hsel : normalizeSelect s ([] : List String) = .ok s.columns := by
      simp [normalizeSelect]
    dsimp only
    rw [hsel]
    dsimp only
    rw [if_neg (by simp [htenant])]
    have hkeys : sortedKeys [(k, v)] = [k] := rfl
    rw [hkeys]
    unfold applyEqFilters
    rw [if_pos (by simp [hunknown])]
  · intro s m ks b e h
    exact applyEqFilters_error_key h
  · intro s m ks b e h
    exact applyLikeFilters_error_key h
  · intro s cols e h
    exact normalizeSelect_error_key h
  · intro s ob e h
    exact buildOrderBy_error_key h
  · intro base env l e h
    obtain ⟨iw, hmem, msg, hP, he⟩ :=
      buildSelectList_error_key (fun hval => validateColReg_error_key hval) h
    exact ⟨iw.1, enum_fst_lt hmem, msg, hP, he⟩
  · intro base env l b e h
    obtain ⟨iw, hmem, hcase⟩ :=
      buildWhereParts_error_key (fun hval => validateColReg_error_key hval) h
    exact ⟨iw.1, enum_fst_lt hmem, hcase⟩
  · intro base env l e h
    obtain ⟨iw, hmem, hcase⟩ :=
      buildOrderParts_error_key (fun hval => validateColReg_error_key hval) h
    exact ⟨iw.1, enum_fst_lt hmem, hcase⟩
  · decide

/-- C4 witness: the amended theorem's generic-path half at a concrete
unknown column. -/
theorem C4_witness :
    SelectPage (fun _ _ => .ok []) pagingSchema 7
        ⟨[], [("nope", .vstr "1")], [], [], 1, 10⟩ =
      .error (.validation [("nope", "unknown field")]) :=
  C4_amended.1 (fun _ _ => .ok []) pagingSchema 7 "nope" (.vstr "1") 1 10
    (by decide) (by decide) (by decide)

/-- `alookup` misses exactly the keys outside the map. -/
theorem alookup_none_not_mem {α : Type} {m : List (String × α)} {k : String}
    (h : alookup m k = none) : k ∉ m.map Prod.fst := by
  intro hmem
  rcases List.mem_map.mp hmem with ⟨p, hp, hk⟩
  unfold alookup at h
  cases hf : List.find? (fun q => q.1 = k) m with
  | some q =>
      rw [hf] at h
      exact absurd h (by simp)
  | none =>
      have := List.find?_eq_none.mp hf p hp
      simp [hk] at this

/-- `normalizeSelect` fails only with a validation error. -/
theorem normalizeSelect_error_validation {s : Schema} {cols : List String} {e : AppError}
    (h : normalizeSelect s cols = .error e) : ∃ errs, e = .validation errs := by
  simp only [normalizeSelect] at h
  split at h
  · exact absurd h (by simp)
  · split at h
    · cases h
      exact ⟨_, rfl⟩
    · split at h
      · cases h
        exact ⟨_, rfl⟩
      · exact absurd h (by simp)

/-- `validateColReg` fails only with a validation error. -/
theorem validateColReg_error {baseAlias : String} {sba : List (String × Schema)}
    {ref : ColumnRef} {fk : String} {e : AppError}
    (h : validateColReg baseAlias sba ref fk = .error e) : ∃ errs, e = .validation errs := by
  simp only [validateColReg] at h
  split at h
  · cases h
    exact ⟨_, rfl⟩
  · split at h
    · cases h
      exact ⟨_, rfl⟩
    · split at h
      · cases h
        exact ⟨_, rfl⟩
      · exact absurd h (by simp)

/-- `registerJoins` fails only with a validation error. -/
theorem registerJoins_error_validation {reg : Registry} :
    ∀ {l : List (Nat × JoinSpec)} {a2t : List (String × String)}
      {env : List (String × Schema)} {e : AppError},
      registerJoins reg l a2t env = .error e → ∃ errs, e = .validation errs := by
  intro l
  induction l with
  | nil =>
      intro a2t env e h
      exact absurd h (by simp [registerJoins])
  | cons hd tl ih =>
      intro a2t env e h
      simp only [registerJoins] at h
      split at h
      · cases h
        exact ⟨_, rfl⟩
      · split at h
        · cases h
          exact ⟨_, rfl⟩
        · split at h
          · cases h
            exact ⟨_, rfl⟩
          · exact ih h

/-- `buildSelectList` propagates only validation errors when its
validator does. -/
theorem buildSelectList_error_validation
    {validate : ColumnRef → String → Except AppError ColumnRef}
    (hv : ∀ {ref fk e}, validate ref fk = .error e → ∃ errs, e = .validation errs) :
    ∀ {l : List (Nat × ColumnRef)} {e : AppError},
      buildSelectList validate l = .error e → ∃ errs, e = .validation errs := by
  intro l
  induction l with
  | nil =>
      intro e h
      exact absurd h (by simp [buildSelectList])
  | cons hd tl ih =>
      intro e h
      simp only [buildSelectList] at h
      split at h
      · rename_i heq
        cases h
        exact hv heq
      · split at h
        · cases h
          exact ih (by assumption)
        · exact absurd h (by simp)

/-- `buildJoinParts` propagates only validation errors when its
validator does. -/
theorem buildJoinParts_error_validation
    {validate : ColumnRef → String → Except AppError ColumnRef}
    (hv : ∀ {ref fk e}, validate ref fk = .error e → ∃ errs, e = .validation errs) :
    ∀ {l : List (Nat × JoinSpec)} {e : AppError},
      buildJoinParts validate l = .error e → ∃ errs, e = .validation errs := by
  intro l
  induction l with
  | nil =>
      intro e h
      exact absurd h (by simp [buildJoinParts])
  | cons hd tl ih =>
      intro e h
      simp only [buildJoinParts] at h
      split at h
      · rename_i heq
        cases h
        exact hv heq
      · split at h
        · rename_i heq
          cases h
          exact hv heq
        · split at h
          · cases h
            exact ⟨_, rfl⟩
          · split at h
            · cases h
              exact ih (by assumption)
            · exact absurd h (by simp)

/-- `buildWhereParts` propagates only validation errors when its
validator does. -/
theorem buildWhereParts_error_validation
    {validate : ColumnRef → String → Except AppError ColumnRef}
    (hv : ∀ {ref fk e}, validate ref fk = .error e → ∃ errs, e = .validation errs) :
    ∀ {l : List (Nat × WhereSpec)} {b : SqlBuilder} {e : AppError},
      buildWhereParts validate l b = .error e → ∃ errs, e = .validation errs := by
  intro l
  induction l with
  | nil =>
      intro b e h
      exact absurd h (by simp [buildWhereParts])
  | cons hd tl ih =>
      intro b e h
      rw [buildWhereParts] at h
      split at h
      · rename_i heq
        cases h
        exact hv heq
      · split at h
        · split at h
          · rename_i heq
            cases h
            exact ih heq
          · exact absurd h (by simp)
        · split at h
          · split at h
            · rename_i heq
              cases h
              exact ih heq
            · exact absurd h (by simp)
          · cases h
            exact ⟨_, rfl⟩

/-- `buildOrderParts` propagates only validation errors when its
validator does. -/
theorem buildOrderParts_error_validation
    {validate : ColumnRef → String → Except AppError ColumnRef}
    (hv : ∀ {ref fk e}, validate ref fk = .error e → ∃ errs, e = .validation errs) :
    ∀ {l : List (Nat × OrderBySpec)} {e : AppError},
      buildOrderParts validate l = .error e → ∃ errs, e = .validation errs := by
  intro l
  induction l with
  | nil =>
      intro e h
      exact absurd h (by simp [buildOrderParts])
  | cons hd tl ih =>
      intro e h
      rw [buildOrderParts] at h
      split at h
      · rename_i heq
        cases h
        exact hv heq
      · split at h
        · cases h
          exact ⟨_, rfl⟩
        · split at h
          · rename_i heq
            cases h
            exact ih heq
          · exact absurd h (by simp)

/-- Every failure of `BuildSQL` is a validation error: the
registry-backed builder never touches the database. -/
theorem BuildSQL_error_validation {reg? : Option Registry} {cid : Int}
    {spec? : Option QuerySpec} {e : AppError}
    (h : BuildSQL reg? cid spec? = .error e) : ∃ errs, e = .validation errs := by
  simp only [BuildSQL] at h
  split at h
  · cases h
    exact ⟨_, rfl⟩
  · cases spec? with
    | none =>
        cases h
        exact ⟨_, rfl⟩
    | some spec =>
        cases reg? with
        | none =>
            cases h
            exact ⟨_, rfl⟩
        | some reg =>
            dsimp only at h
            cases hreg : regSchema reg spec.fromTable with
            | none =>
                rw [hreg] at h
                cases h
                exact ⟨_, rfl⟩
            | some bsch =>
                rw [hreg] at h
                dsimp only at h
                split at h
                · rename_i heq
                  cases h
                  exact registerJoins_error_validation heq
                · split at h
                  · rename_i heq
                    cases h
                    split at heq
                    · cases hsel : buildSelectList
                          (validateColReg (baseAliasOf spec) _) spec.select.enum with
                      | error e2 =>
                          rw [hsel] at heq
                          simp only [Except.map] at heq
                          cases heq
                          exact buildSelectList_error_validation
                            (fun h => validateColReg_error h) hsel
                      | ok oo =>
                          rw [hsel] at heq
                          exact absurd heq (by simp [Except.map])
                    · exact absurd heq (by simp)
                  · split at h
                    · rename_i heq
                      cases h
                      exact buildJoinParts_error_validation
                        (fun h => validateColReg_error h) heq
                    · split at h
                      · cases h
                        exact ⟨_, rfl⟩
                      · split at h
                        · rename_i heq
                          cases h
                          exact buildWhereParts_error_validation
                            (fun h => validateColReg_error h) heq
                        · split at h
                          · rename_i heq
                            cases h
                            split at heq
                            · cases hord : buildOrderParts
                                  (validateColReg (baseAliasOf spec) _) spec.orderBy.enum with
                              | error e2 =>
                                  rw [hord] at heq
                                  simp only [Except.map] at heq
                                  cases heq
                                  exact buildOrderParts_error_validation
                                    (fun h => validateColReg_error h) hord
                              | ok oo =>
                                  rw [hord] at heq
                                  exact absurd heq (by simp [Except.map])
                            · exact absurd heq (by simp)
                          · split at h <;> exact absurd h (by simp)

/-- The tenant predicates written as a function of the starting
placeholder count and the exposing aliases. -/
def tenantPartsFormula (n : Nat) : List String → List String
  | [] => []
  | al :: rest =>
      (al ++ ".company_id = " ++ ("$" ++ toString (n + 1))) :: tenantPartsFormula (n + 1) rest

/-- `tenantWhereParts` injects one predicate per alias whose schema
exposes `company_id`, binding the tenant identifier each time, in alias
order. -/
theorem tenantWhereParts_eq (cid : Int) (env : List (String × Schema)) :
    ∀ b : SqlBuilder,
      tenantWhereParts cid env b =
        (tenantPartsFormula b.args.length
            ((env.filter (fun p => p.2.HasColumn "company_id")).map Prod.fst),
          ⟨b.args ++ (env.filter (fun p => p.2.HasColumn "company_id")).map
            (fun _ => GoVal.vint cid)⟩) := by
  induction env with
  | nil =>
      intro b
      simp [tenantWhereParts, tenantPartsFormula]
  | cons hd tl ih =>
      intro b
      obtain ⟨al, sch⟩ := hd
      unfold tenantWhereParts
      split
      · rename_i hcol
        rw [ih]
        simp [SqlBuilder.push, tenantPartsFormula, List.filter_cons, hcol]
      · rename_i hcol
        rw [ih]
        simp only [Bool.not_eq_true] at hcol
        simp [List.filter_cons, hcol]

/-- A successful where-compilation only appends arguments. -/
theorem buildWhereParts_args_prefix
    {validate : ColumnRef → String → Except AppError ColumnRef} :
    ∀ {l : List (Nat × WhereSpec)} {b : SqlBuilder} {parts : List String}
      {b2 : SqlBuilder},
      buildWhereParts validate l b = .ok (parts, b2) → ∃ tail, b2.args = b.args ++ tail := by
  intro l
  induction l with
  | nil =>
      intro b parts b2 h
      simp [buildWhereParts] at h
      exact ⟨[], by simp [h.2]⟩
  | cons hd tl ih =>
      intro b parts b2 h
      rw [buildWhereParts] at h
      split at h
      · exact absurd h (by simp)
      · split at h
        · split at h
          · exact absurd h (by simp)
          · rename_i heq
            cases h
            rcases ih heq with ⟨tail, htail⟩
            exact ⟨hd.2.value :: tail, by simp [htail, SqlBuilder.push]⟩
        · split at h
          · split at h
            · exact absurd h (by simp)
            · rename_i heq
              cases h
              rcases ih heq with ⟨tail, htail⟩
              exact ⟨GoVal.vstr ("%" ++ goSprint hd.2.value ++ "%") :: tail,
                by simp [htail, SqlBuilder.push]⟩
          · exact absurd h (by simp)

/-- A successful equality-filter compilation only appends arguments. -/
theorem applyEqFilters_args_prefix {s : Schema} {m : List (String × GoVal)} :
    ∀ {ks : List String} {b : SqlBuilder} {parts : List String} {b2 : SqlBuilder},
      applyEqFilters s m ks b = .ok (parts, b2) → ∃ tail, b2.args = b.args ++ tail := by
  intro ks
  induction ks with
  | nil =>
      intro b parts b2 h
      simp [applyEqFilters] at h
      exact ⟨[], by simp [h.2]⟩
  | cons k rest ih =>
      intro b parts b2 h
      rw [applyEqFilters] at h
      split at h
      · exact absurd h (by simp)
      · split at h
        · exact absurd h (by simp)
        · rename_i heq
          cases h
          rcases ih heq with ⟨tail, htail⟩
          exact ⟨(alookup m k).getD GoVal.vnull :: tail,
            by simp [htail, SqlBuilder.eq, SqlBuilder.push]⟩

/-- A successful like-filter compilation only appends arguments. -/
theorem applyLikeFilters_args_prefix {s : Schema} {m : List (String × GoVal)} :
    ∀ {ks : List String} {b : SqlBuilder} {parts : List String} {b2 : SqlBuilder},
      applyLikeFilters s m ks b = .ok (parts, b2) → ∃ tail, b2.args = b.args ++ tail := by
  intro ks
  induction ks with
  | nil =>
      intro b parts b2 h
      simp [applyLikeFilters] at h
      exact ⟨[], by simp [h.2]⟩
  | cons k rest ih =>
      intro b parts b2 h
      rw [applyLikeFilters] at h
      split at h
      · exact absurd h (by simp)
      · split at h
        · exact absurd h (by simp)
        · rename_i heq
          cases h
          rcases ih heq with ⟨tail, htail⟩
          exact ⟨GoVal.vstr ("%" ++ goSprint ((alookup m k).getD GoVal.vnull) ++ "%") :: tail,
            by simp [htail, SqlBuilder.ilike, SqlBuilder.push]⟩

/-- `registerJoins` keeps the alias maps parallel and never registers a
duplicate alias. -/
theorem registerJoins_ok_nodup {reg : Registry} :
    ∀ {l : List (Nat × JoinSpec)} {a2t : List (String × String)}
      {env : List (String × Schema)} {a2t' : List (String × String)}
      {env' : List (String × Schema)},
      registerJoins reg l a2t env = .ok (a2t', env') →
      a2t.map Prod.fst = env.map Prod.fst →
      (env.map Prod.fst).Nodup →
      a2t'.map Prod.fst = env'.map Prod.fst ∧ (env'.map Prod.fst).Nodup := by
  intro l
  induction l with
  | nil =>
      intro a2t env a2t' env' h hpar hnd
      simp [registerJoins] at h
      rw [← h.1, ← h.2]
      exact ⟨hpar, hnd⟩
  | cons hd tl ih =>
      intro a2t env a2t' env' h hpar hnd
      rw [registerJoins] at h
      split at h
      · exact absurd h (by simp)
      · split at h
        · exact absurd h (by simp)
        · rename_i hdup
          split at h
          · exact absurd h (by simp)
          · rename_i sch hreg
            have hnone : alookup a2t (joinAlias hd.2) = none := by
              cases halo : alookup a2t (joinAlias hd.2) with
              | none => rfl
              | some x =>
                  rw [halo] at hdup
                  simp at hdup
            have hnotmem : joinAlias hd.2 ∉ env.map Prod.fst := by
              rw [← hpar]
              exact alookup_none_not_mem hnone
            refine ih h ?_ ?_
            · simp [hpar]
            · rw [List.map_append]
              simp only [List.map_cons, List.map_nil]
              rw [List.nodup_append]
              exact ⟨hnd, List.nodup_singleton _, by
                intro x hx hx1
                simp at hx1
                rw [hx1] at hx
                exact hnotmem hx⟩

/-- C2: tenant enforcement. (1) A generic paged select over a schema
without the tenant column fails with a validation error and builds no
SQL. (2) The registry-backed builder likewise rejects every spec whose
base table lacks the tenant column with a validation error. (3) A
successful paged select always targets a tenant schema and its SQL's
first WHERE conjunct is the single injected `company_id = $1` predicate
whose bound first argument is the supplied tenant identifier. (4) A
successful `BuildSQL` run injects, before all caller predicates,
exactly one `alias.company_id = $n` conjunct per registered alias whose
schema exposes `company_id` — the exposing aliases are pairwise
distinct and exhaust the alias environment — with the first arguments
binding the tenant identifier once per such alias. -/
theorem C2_tenant_enforcement :
    (∀ (q : Querier) (s : Schema) (cid : Int) (req : SelectRequest),
      s.hasColumn "company_id" = false →
      ∃ errs, SelectPage q s cid req = .error (.validation errs)) ∧
    (∀ (reg : Registry) (cid : Int) (spec : QuerySpec) (bsch : Schema),
      regSchema reg spec.fromTable = some bsch →
      bsch.HasColumn "company_id" = false →
      ∃ errs, BuildSQL (some reg) cid (some spec) = .error (.validation errs)) ∧
    (∀ (s : Schema) (cid : Int) (req : SelectRequest) (bs : BuiltSelect),
      selectPageQuery s cid req = .ok bs →
      s.hasColumn "company_id" = true ∧
      ∃ selCols rest osql ph1 ph2 argsTail,
        bs.sql = "SELECT " ++ selCols ++ " FROM " ++ s.table ++ " WHERE " ++
          goJoin ("company_id = $1" :: rest) " AND " ++ osql ++ " LIMIT " ++ ph1 ++
          " OFFSET " ++ ph2 ∧
        bs.args = GoVal.vint cid :: argsTail) ∧
    (∀ (reg : Registry) (cid : Int) (spec : QuerySpec) (bq : BuiltQuery),
      BuildSQL (some reg) cid (some spec) = .ok bq →
      ∃ (bsch : Schema) (a2t : List (String × String)) (env : List (String × Schema)),
        regSchema reg spec.fromTable = some bsch ∧
        bsch.HasColumn "company_id" = true ∧
        registerJoins reg spec.joins.enum [(baseAliasOf spec, spec.fromTable)]
          [(baseAliasOf spec, bsch)] = .ok (a2t, env) ∧
        ((env.filter (fun p => p.2.HasColumn "company_id")).map Prod.fst).Nodup ∧
        (∀ al, al ∈ (env.filter (fun p => p.2.HasColumn "company_id")).map Prod.fst ↔
          ∃ sch, (al, sch) ∈ env ∧ sch.HasColumn "company_id" = true) ∧
        (∃ argsTail, bq.args =
          ((env.filter (fun p => p.2.HasColumn "company_id")).map
            (fun _ => GoVal.vint cid)) ++ argsTail) ∧
        (∃ selSQL joinSQL userParts osql limSQL,
          bq.sql = "SELECT " ++ selSQL ++ " FROM " ++
            (spec.fromTable ++ " AS " ++ baseAliasOf spec) ++ " " ++ joinSQL ++
            " WHERE " ++ goJoin (tenantPartsFormula 0
              ((env.filter (fun p => p.2.HasColumn "company_id")).map Prod.fst) ++
              userParts) " AND " ++ osql ++ limSQL)) := by
  refine ⟨?_, ?_, ?_, ?_⟩
  · intro q s cid req h
    unfold SelectPage
    cases hq : selectPageQuery s cid req with
    | error e =>
        have : ∃ errs, e = AppError.validation errs := by
          unfold selectPageQuery at hq
          split at hq
          · cases hq
            exact ⟨_, rfl⟩
          · split at hq
            · rename_i v hv
              cases hq
              exact normalizeSelect_error_validation hv
            · split at hq
              · cases hq
                exact ⟨_, rfl⟩
              · rename_i hcol
                rw [h] at hcol
                simp at hcol
        rcases this with ⟨errs, rfl⟩
        exact ⟨errs, rfl⟩
    | ok bs =>
        exfalso
        unfold selectPageQuery at hq
        split at hq
        · exact absurd hq (by simp)
        · split at hq
          · exact absurd hq (by simp)
          · split at hq
            · exact absurd hq (by simp)
            · rename_i hcol
              rw [h] at hcol
              simp at hcol
  · intro reg cid spec bsch hreg h
    cases hb : BuildSQL (some reg) cid (some spec) with
    | ok bq =>
        exfalso
        simp only [BuildSQL, hreg] at hb
        split at hb
        · exact absurd hb (by simp)
        · split at hb
          · exact absurd hb (by simp)
          · split at hb
            · exact absurd hb (by simp)
            · split at hb
              · exact absurd hb (by simp)
              · split at hb
                · exact absurd hb (by simp)
                · rename_i hcol
                  rw [h] at hcol
                  simp at hcol
    | error e =>
        rcases BuildSQL_error_validation hb with ⟨errs, rfl⟩
        exact ⟨errs, rfl⟩
  · intro s cid req bs h
    unfold selectPageQuery at h
    split at h
    · exact absurd h (by simp)
    · split at h
      · exact absurd h (by simp)
      · rename_i selectCols hsel
        split at h
        · exact absurd h (by simp)
        · rename_i htenant
          split at h
          · exact absurd h (by simp)
          · rename_i eqParts b2 heqf
            split at h
            · exact absurd h (by simp)
            · rename_i likeParts b3 hlikef
              split at h
              · exact absurd h (by simp)
              · rename_i osql hord
                cases h
                rcases applyEqFilters_args_prefix heqf with ⟨t1, ht1⟩
                rcases applyLikeFilters_args_prefix hlikef with ⟨t2, ht2⟩
                refine ⟨by simpa using htenant, goJoin selectCols ",",
                  eqParts ++ likeParts, osql,
                  (b3.arg (GoVal.vint (clampPerPage req.perPage + 1))).1,
                  ((b3.arg (GoVal.vint (clampPerPage req.perPage + 1))).2.arg
                    (GoVal.vint ((clampPage req.page - 1) * clampPerPage req.perPage))).1,
                  t1 ++ t2 ++ [GoVal.vint (clampPerPage req.perPage + 1),
                    GoVal.vint ((clampPage req.page - 1) * clampPerPage req.perPage)],
                  ?_, ?_⟩
                · have htp : (SqlBuilder.eq (⟨[]⟩ : SqlBuilder) "company_id"
                      (GoVal.vint cid)).1 = "company_id = $1" := by
                    simp [SqlBuilder.eq, SqlBuilder.push]
                    rfl
                  rw [htp]
                · simp only [SqlBuilder.arg, SqlBuilder.push, SqlBuilder.eq] at ht1 ht2 ⊢
                  rw [ht2, ht1]
                  simp
  · intro reg cid spec bq h
    simp only [BuildSQL] at h
    split at h
    · exact absurd h (by simp)
    · cases hreg : regSchema reg spec.fromTable with
      | none =>
          rw [hreg] at h
          exact absurd h (by simp)
      | some bsch =>
          rw [hreg] at h
          dsimp only at h
          split at h
          · exact absurd h (by simp)
          · rename_i a2t env hjoins
            split at h
            · exact absurd h (by simp)
            · rename_i selSQL hsel
              split at h
              · exact absurd h (by simp)
              · rename_i joinParts hjoinparts
                split at h
                · exact absurd h (by simp)
                · rename_i hbase
                  split at h
                  · exact absurd h (by simp)
                  · rename_i userParts up hwheres
                    split at h
                    · exact absurd h (by simp)
                    · rename_i osql hord
                      rw [tenantWhereParts_eq] at hwheres h
                      rcases buildWhereParts_args_prefix hwheres with ⟨tail, htail⟩
                      have hnd : ((env.filter (fun p => p.2.HasColumn "company_id")).map
                          Prod.fst).Nodup := by
                        have h2 := (registerJoins_ok_nodup hjoins rfl (by simp)).2
                        exact h2.sublist (List.Sublist.map Prod.fst (List.filter_sublist env))
                      have hiff : ∀ al,
                          al ∈ (env.filter (fun p => p.2.HasColumn "company_id")).map
                            Prod.fst ↔
                          ∃ sch, (al, sch) ∈ env ∧ sch.HasColumn "company_id" = true := by
                        intro al
                        constructor
                        · intro hm
                          rcases List.mem_map.mp hm with ⟨pp, hpf, hfst⟩
                          rcases List.mem_filter.mp hpf with ⟨hpe, hpp⟩
                          exact ⟨pp.2, by rw [← hfst]; simpa using hpe, hpp⟩
                        · rintro ⟨sch, hmem, hcol⟩
                          exact List.mem_map.mpr
                            ⟨(al, sch), List.mem_filter.mpr ⟨hmem, hcol⟩, rfl⟩
                      split at h
                      · cases h
                        refine ⟨bsch, a2t, env, rfl, by simpa using hbase, hjoins, hnd,
                          hiff, ⟨tail ++ [GoVal.vint spec.limit], ?_⟩,
                          ⟨selSQL, goJoin joinParts " ", userParts, osql,
                            " LIMIT " ++ (up.push (.vint spec.limit)).1, ?_⟩⟩
                        · simp [SqlBuilder.push, htail]
                        · simp [SqlBuilder.push]
                      · cases h
                        refine ⟨bsch, a2t, env, rfl, by simpa using hbase, hjoins, hnd,
                          hiff, ⟨tail, ?_⟩,
                          ⟨selSQL, goJoin joinParts " ", userParts, osql, "", ?_⟩⟩
                        · simpa using htail
                        · simp

/-- A schema without any tenant column. -/
def noTenantSchema : Schema := ⟨"n", "id", ["id"], [], [], [], false, sampleTime⟩

/-- C2 witness: the theorem's reject half at a schema lacking
`company_id`, and its positive half at a concrete successful build. -/
theorem C2_witness :
    (∃ errs, SelectPage (fun _ _ => .ok []) noTenantSchema 5 ⟨[], [], [], [], 1, 2⟩ =
      .error (.validation errs)) ∧
    (pagingSchema.hasColumn "company_id" = true ∧
      ∃ selCols rest osql ph1 ph2 argsTail,
        (BuiltSelect.mk "SELECT id,company_id FROM t WHERE company_id = $1 LIMIT $2 OFFSET $3"
            [.vint 7, .vint 3, .vint 0] 1 2).sql =
          "SELECT " ++ selCols ++ " FROM " ++ pagingSchema.table ++ " WHERE " ++
            goJoin ("company_id = $1" :: rest) " AND " ++ osql ++ " LIMIT " ++ ph1 ++
            " OFFSET " ++ ph2 ∧
        (BuiltSelect.mk "SELECT id,company_id FROM t WHERE company_id = $1 LIMIT $2 OFFSET $3"
            [.vint 7, .vint 3, .vint 0] 1 2).args = GoVal.vint 7 :: argsTail) :=
  ⟨C2_tenant_enforcement.1 (fun _ _ => .ok []) noTenantSchema 5 ⟨[], [], [], [], 1, 2⟩
      (by decide),
    C2_tenant_enforcement.2.2.1 pagingSchema 7 ⟨[], [], [], [], 1, 2⟩
      (BuiltSelect.mk "SELECT id,company_id FROM t WHERE company_id = $1 LIMIT $2 OFFSET $3"
        [.vint 7, .vint 3, .vint 0] 1 2) (by decide)⟩

/-- The value a builder binds for one predicate: `like` values are
always wrapped in `%` wildcards (regardless of wildcards already
present), every other operator binds the caller's value unchanged. -/
def whereBound (w : WhereSpec) : GoVal :=
  if goLower (goTrim w.op) = "like" then .vstr ("%" ++ goSprint w.value ++ "%")
  else w.value

/-- The SQL text a builder emits for one predicate: `like` becomes a
case-insensitive `ILIKE` match, every other operator appears
verbatim, with the 1-based placeholder `$n`. -/
def wherePartFor (lref : ColumnRef) (op : String) (n : Nat) : String :=
  if op = "like" then lref.str ++ " ILIKE " ++ ("$" ++ toString n)
  else lref.str ++ " " ++ op ++ " " ++ ("$" ++ toString n)

/-- The predicate clauses as a function of the starting placeholder
count, the validated column references and the normalized operators. -/
def wherePartsFormula (n : Nat) : List (ColumnRef × String) → List String
  | [] => []
  | (lref, op) :: rest => wherePartFor lref op (n + 1) :: wherePartsFormula (n + 1) rest

/-- Closed form of a successful where-compilation: every accepted
operator is one of the six allowed ones, the bound arguments are the
`whereBound` values appended in order, and the clause texts follow
`wherePartsFormula` over the validated references. -/
theorem buildWhereParts_ok_characterization
    {validate : ColumnRef → String → Except AppError ColumnRef} :
    ∀ {l : List (Nat × WhereSpec)} {b : SqlBuilder} {parts : List String}
      {b2 : SqlBuilder},
      buildWhereParts validate l b = .ok (parts, b2) →
      b2.args = b.args ++ l.map (fun iw => whereBound iw.2) ∧
      (∀ iw ∈ l, goLower (goTrim iw.2.op) = "=" ∨ goLower (goTrim iw.2.op) = "<=" ∨
        goLower (goTrim iw.2.op) = ">=" ∨ goLower (goTrim iw.2.op) = "<" ∨
        goLower (goTrim iw.2.op) = ">" ∨ goLower (goTrim iw.2.op) = "like") ∧
      ∃ lefts, List.Forall₂ (fun (iw : Nat × WhereSpec) (lref : ColumnRef) =>
          validate iw.2.left ("where[" ++ toString iw.1 ++ "].field") = .ok lref) l lefts ∧
        parts = wherePartsFormula b.args.length
          (lefts.zip (l.map (fun iw => goLower (goTrim iw.2.op)))) := by
  intro l
  induction l with
  | nil =>
      intro b parts b2 h
      simp [buildWhereParts] at h
      refine ⟨by simp [h.2], by simp, [], by simp [List.Forall₂], by simp [h.1, wherePartsFormula]⟩
  | cons hd tl ih =>
      intro b parts b2 h
      rw [buildWhereParts] at h
      split at h
      · exact absurd h (by simp)
      · rename_i lref hval
        split at h
        · rename_i hops
          split at h
          · exact absurd h (by simp)
          · rename_i recParts recB heq
            cases h
            rcases ih heq with ⟨hargs, hopsrec, lefts, hfa, hparts⟩
            have hnotlike : ¬ goLower (goTrim hd.2.op) = "like" := by
              rcases hops with h5 | h5 | h5 | h5 | h5 <;> rw [h5] <;> decide
            refine ⟨?_, ?_, lref :: lefts, List.Forall₂.cons hval hfa, ?_⟩
            · rw [hargs]
              simp [SqlBuilder.push, whereBound, hnotlike]
            · intro iw hiw
              rcases List.mem_cons.mp hiw with rfl | hmem
              · rcases hops with h5 | h5 | h5 | h5 | h5 <;> simp [h5]
              · exact hopsrec iw hmem
            · rw [hparts]
              simp only [List.map_cons, List.zip_cons_cons, wherePartsFormula,
                wherePartFor, if_neg hnotlike, SqlBuilder.push, List.length_append,
                List.length_cons, List.length_nil, List.zip, Nat.zero_add]
        · split at h
          · rename_i hlike
            split at h
            · exact absurd h (by simp)
            · rename_i recParts recB heq
              cases h
              rcases ih heq with ⟨hargs, hopsrec, lefts, hfa, hparts⟩
              refine ⟨?_, ?_, lref :: lefts, List.Forall₂.cons hval hfa, ?_⟩
              · rw [hargs]
                simp [SqlBuilder.push, whereBound, hlike]
              · intro iw hiw
                rcases List.mem_cons.mp hiw with rfl | hmem
                · simp [hlike]
                · exact hopsrec iw hmem
              · rw [hparts]
                simp only [List.map_cons, List.zip_cons_cons, wherePartsFormula,
                  wherePartFor, hlike, if_pos, SqlBuilder.push, List.length_append,
                  List.length_cons, List.length_nil, List.zip, Nat.zero_add]
          · exact absurd h (by simp)

/-- Closed form of a successful like-filter compilation: the bound
patterns are the caller's values rendered and wrapped in `%`
wildcards, in sorted-key order. -/
theorem applyLikeFilters_args_eq {s : Schema} {m : List (String × GoVal)} :
    ∀ {ks : List String} {b : SqlBuilder} {parts : List String} {b2 : SqlBuilder},
      applyLikeFilters s m ks b = .ok (parts, b2) →
      b2.args = b.args ++ ks.map
        (fun k => GoVal.vstr ("%" ++ goSprint ((alookup m k).getD .vnull) ++ "%")) := by
  intro ks
  induction ks with
  | nil =>
      intro b parts b2 h
      simp [applyLikeFilters] at h
      simp [h.2]
  | cons k rest ih =>
      intro b parts b2 h
      rw [applyLikeFilters] at h
      split at h
      · exact absurd h (by simp)
      · split at h
        · exact absurd h (by simp)
        · rename_i heq
          cases h
          rw [ih heq]
          simp [SqlBuilder.ilike, SqlBuilder.push]

/-- A `like` predicate on `m.id` whose value already contains the `%`
wildcard character. -/
def likeDemoWhere : WhereSpec := ⟨⟨"", "id"⟩, "like", GoVal.vstr "a%b"⟩

/-- A query over the registered table `m` with the single wildcard-bearing
`like` predicate. -/
def likeDemoSpec : QuerySpec := ⟨"m", "", [], [], [likeDemoWhere], [], 0⟩

/-- Mapping the payload of an enumerated list. -/
theorem enum_map_snd {α β : Type} (f : α → β) (l : List α) :
    l.enum.map (fun iw => f iw.2) = l.map f := by
  rw [show (fun (iw : Nat × α) => f iw.2) = f ∘ Prod.snd from rfl, ← List.map_map,
    List.enum_map_snd]

/-- A membership transfer from an enumerated list to its payload. -/
theorem forall_of_forall_enum {α : Type} {P : α → Prop} {l : List α}
    (h : ∀ iw ∈ l.enum, P iw.2) : ∀ w ∈ l, P w := by
  intro w hw
  rw [← List.enum_map_snd l] at hw
  rcases List.mem_map.mp hw with ⟨iw, hiw, rfl⟩
  exact h iw hiw

/-- Inversion of a successful `BuildSQL` at its where-compilation: the
emitted SQL and arguments extend the tenant-predicate builder state
with the compiled caller predicates and the optional limit. -/
theorem BuildSQL_ok_wheres {reg : Registry} {cid : Int} {spec : QuerySpec}
    {bq : BuiltQuery} (h : BuildSQL (some reg) cid (some spec) = .ok bq) :
    ∃ (env : List (String × Schema)) (userParts : List String) (b2 : SqlBuilder),
      buildWhereParts (validateColReg (baseAliasOf spec) env) spec.wheres.enum
        (tenantWhereParts cid env ⟨[]⟩).2 = .ok (userParts, b2) ∧
      ∃ (selSQL joinSQL osql limSQL : String) (limArgs : List GoVal),
        bq.sql = "SELECT " ++ selSQL ++ " FROM " ++
          (spec.fromTable ++ " AS " ++ baseAliasOf spec) ++ " " ++ joinSQL ++
          " WHERE " ++ goJoin ((tenantWhereParts cid env ⟨[]⟩).1 ++ userParts) " AND " ++
          osql ++ limSQL ∧
        bq.args = b2.args ++ limArgs := by
  simp only [BuildSQL] at h
  split at h
  · exact absurd h (by simp)
  · cases hreg : regSchema reg spec.fromTable with
    | none =>
        rw [hreg] at h
        exact absurd h (by simp)
    | some bsch =>
        rw [hreg] at h
        dsimp only at h
        split at h
        · exact absurd h (by simp)
        · rename_i a2t env hjoins
          split at h
          · exact absurd h (by simp)
          · rename_i selSQL hsel
            split at h
            · exact absurd h (by simp)
            · rename_i joinParts hjoinparts
              split at h
              · exact absurd h (by simp)
              · rename_i hbase
                split at h
                · exact absurd h (by simp)
                · rename_i userParts up hwheres
                  split at h
                  · exact absurd h (by simp)
                  · rename_i osql hord
                    split at h
                    · cases h
                      exact ⟨env, userParts, up, hwheres,
                        selSQL, goJoin joinParts " ", osql,
                        " LIMIT " ++ (up.push (.vint spec.limit)).1,
                        [GoVal.vint spec.limit], rfl, by simp [SqlBuilder.push]⟩
                    · cases h
                      exact ⟨env, userParts, up, hwheres,
                        selSQL, goJoin joinParts " ", osql, "", [], rfl, by simp⟩

/-- Inversion of a successful `BuildSQLWithIntrospection` at its
where-compilation. -/
theorem BuildSQLI_ok_wheres {db : IntrospectDB} {cid : Int} {spec : QuerySpec}
    {policy : TablePolicy} {bq : BuiltQuery}
    (h : BuildSQLWithIntrospection (some db) cid (some spec) policy = .ok bq) :
    ∃ (cols : List (String × List String)) (userParts : List String) (b2 : SqlBuilder),
      buildWhereParts (validateColIntro (baseAliasOf spec) cols) spec.wheres.enum
        (tenantWherePartsI cid cols ⟨[]⟩).2 = .ok (userParts, b2) ∧
      ∃ limArgs, bq.args = b2.args ++ limArgs := by
  simp only [BuildSQLWithIntrospection] at h
  split at h
  · exact absurd h (by simp)
  · split at h
    · exact absurd h (by simp)
    · split at h
      · exact absurd h (by simp)
      · split at h
        · exact absurd h (by simp)
        · split at h
          · exact absurd h (by simp)
          · rename_i a2t hjoins
            split at h
            · exact absurd h (by simp)
            · rename_i cols hcols
              split at h
              · exact absurd h (by simp)
              · rename_i hbase
                split at h
                · exact absurd h (by simp)
                · rename_i selSQL hsel
                  split at h
                  · exact absurd h (by simp)
                  · rename_i joinParts hjoinparts
                    split at h
                    · exact absurd h (by simp)
                    · rename_i userParts up hwheres
                      split at h
                      · exact absurd h (by simp)
                      · rename_i osql hord
                        split at h
                        · exact absurd h (by simp)
                        · split at h
                          · cases h
                            exact ⟨cols, userParts, up, hwheres,
                              [GoVal.vint spec.limit], by simp [SqlBuilder.push]⟩
                          · cases h
                            exact ⟨cols, userParts, up, hwheres, [], by simp⟩

/-- Specialization of `enum_map_snd` to the bound values. -/
theorem enum_map_bound (l : List WhereSpec) :
    l.enum.map (fun iw => whereBound iw.2) = l.map whereBound :=
  enum_map_snd whereBound l

/-- Specialization of `enum_map_snd` to the normalized operators. -/
theorem enum_map_op (l : List WhereSpec) :
    l.enum.map (fun iw => goLower (goTrim iw.2.op)) =
      l.map (fun w => goLower (goTrim w.op)) :=
  enum_map_snd (fun w => goLower (goTrim w.op)) l

/-- C6 counterexample: the caller's `like` value `a%b` already contains
the `%` wildcard, yet `BuildSQL` still wraps it, binding `%a%b%` rather
than the unchanged value. -/
theorem C6_counterexample :
    BuildSQL (some scenarioRegistry) 5 (some likeDemoSpec) =
      .ok ⟨"SELECT * FROM m AS m  WHERE m.company_id = $1 AND m.id ILIKE $2",
        [GoVal.vint 5, GoVal.vstr "%a%b%"]⟩ ∧
    likeDemoSpec.wheres.map (fun w => w.value) = [GoVal.vstr "a%b"] ∧
    GoVal.vstr "%a%b%" ≠ GoVal.vstr "a%b" := by
  refine ⟨by decide, by decide, by decide⟩

/-- C6 (amended): in every builder, an accepted `like` predicate compiles
to a case-insensitive `ILIKE` match whose bound pattern is the caller's
value wrapped in `%` wildcards unconditionally — even when the value
already contains wildcard characters — and every other allowed operator
(`=`, `<=`, `>=`, `<`, `>`) appears verbatim with a positional
placeholder: successful `BuildSQL` and `BuildSQLWithIntrospection` runs
bind exactly the `whereBound` values in order, `BuildSQL`'s predicate
clauses follow `wherePartsFormula` (which emits `ILIKE` for `like` and
the operator verbatim otherwise), and a successful `selectPageQuery`
binds every `like` filter value wrapped in `%` wildcards. -/
theorem C6_amended :
    (∀ (reg : Registry) (cid : Int) (spec : QuerySpec) (bq : BuiltQuery),
      BuildSQL (some reg) cid (some spec) = .ok bq →
      (∀ w ∈ spec.wheres,
        goLower (goTrim w.op) = "=" ∨ goLower (goTrim w.op) = "<=" ∨
        goLower (goTrim w.op) = ">=" ∨ goLower (goTrim w.op) = "<" ∨
        goLower (goTrim w.op) = ">" ∨ goLower (goTrim w.op) = "like") ∧
      ∃ (env : List (String × Schema)) (lefts : List ColumnRef)
        (pre limArgs : List GoVal) (selSQL joinSQL osql limSQL : String),
        bq.args = pre ++ spec.wheres.map whereBound ++ limArgs ∧
        bq.sql = "SELECT " ++ selSQL ++ " FROM " ++
          (spec.fromTable ++ " AS " ++ baseAliasOf spec) ++ " " ++ joinSQL ++
          " WHERE " ++ goJoin ((tenantWhereParts cid env ⟨[]⟩).1 ++
            wherePartsFormula pre.length
              (lefts.zip (spec.wheres.map (fun w => goLower (goTrim w.op)))))
            " AND " ++ osql ++ limSQL) ∧
    (∀ (db : IntrospectDB) (cid : Int) (spec : QuerySpec) (policy : TablePolicy)
        (bq : BuiltQuery),
      BuildSQLWithIntrospection (some db) cid (some spec) policy = .ok bq →
      ∃ (pre limArgs : List GoVal),
        bq.args = pre ++ spec.wheres.map whereBound ++ limArgs) ∧
    (∀ (s : Schema) (cid : Int) (req : SelectRequest) (bs : BuiltSelect),
      selectPageQuery s cid req = .ok bs →
      ∃ pre, bs.args = pre ++ (sortedKeys req.likeM).map
          (fun k => GoVal.vstr ("%" ++ goSprint ((alookup req.likeM k).getD .vnull) ++ "%")) ++
        [GoVal.vint (clampPerPage req.perPage + 1),
          GoVal.vint ((clampPage req.page - 1) * clampPerPage req.perPage)]) := by
  refine ⟨?_, ?_, ?_⟩
  · intro reg cid spec bq h
    obtain ⟨env, userParts, b2, hw, selSQL, joinSQL, osql, limSQL, limArgs, hsql, hargs⟩ :=
      BuildSQL_ok_wheres h
    obtain ⟨hargs2, hops, lefts, hforall, hparts⟩ :=
      buildWhereParts_ok_characterization hw
    refine ⟨forall_of_forall_enum hops, env, lefts,
      (tenantWhereParts cid env ⟨[]⟩).2.args, limArgs, selSQL, joinSQL, osql, limSQL,
      ?_, ?_⟩
    · rw [hargs, hargs2, enum_map_bound]
    · rw [hsql, hparts, enum_map_op]
  · intro db cid spec policy bq h
    obtain ⟨cols, userParts, b2, hw, limArgs, hargs⟩ := BuildSQLI_ok_wheres h
    obtain ⟨hargs2, -, -⟩ := buildWhereParts_ok_characterization hw
    exact ⟨(tenantWherePartsI cid cols ⟨[]⟩).2.args, limArgs,
      by rw [hargs, hargs2, enum_map_bound]⟩
  · intro s cid req bs h
    simp only [selectPageQuery] at h
    split at h
    · exact absurd h (by simp)
    · split at h
      · exact absurd h (by simp)
      · rename_i selectCols hsel
        split at h
        · exact absurd h (by simp)
        · split at h
          · exact absurd h (by simp)
          · rename_i eqParts b2 heq
            split at h
            · exact absurd h (by simp)
            · rename_i likeParts b3 hlike
              split at h
              · exact absurd h (by simp)
              · rename_i osql hord
                cases h
                have hlargs := applyLikeFilters_args_eq hlike
                exact ⟨b2.args,
                  by simp [SqlBuilder.arg, SqlBuilder.push, hlargs, List.append_assoc]⟩

/-- Two where-lists that agree on indices, column references and
normalized operators — their values may differ arbitrarily — compile to
the same clause texts and the same argument counts, or fail with the
same error. -/
theorem buildWhereParts_value_indep
    (validate : ColumnRef → String → Except AppError ColumnRef)
    {l₁ l₂ : List (Nat × WhereSpec)}
    (hrel : List.Forall₂ (fun iw₁ iw₂ : Nat × WhereSpec =>
      iw₁.1 = iw₂.1 ∧ iw₁.2.left = iw₂.2.left ∧
      goLower (goTrim iw₁.2.op) = goLower (goTrim iw₂.2.op)) l₁ l₂) :
    ∀ {b₁ b₂ : SqlBuilder}, b₁.args.length = b₂.args.length →
      (buildWhereParts validate l₁ b₁).map (fun pb => (pb.1, pb.2.args.length)) =
        (buildWhereParts validate l₂ b₂).map (fun pb => (pb.1, pb.2.args.length)) := by
  induction hrel with
  | nil =>
      intro b₁ b₂ hlen
      simp [buildWhereParts, Except.map, hlen]
  | cons hab htl ih =>
      rename_i a₁ a₂ t₁ t₂
      intro b₁ b₂ hlen
      obtain ⟨i₁, w₁⟩ := a₁
      obtain ⟨i₂, w₂⟩ := a₂
      obtain ⟨hi, hleft, hop⟩ := hab
      dsimp only at hi hleft hop
      subst hi
      simp only [buildWhereParts]
      rw [hleft, hop]
      cases hv : validate w₂.left ("where[" ++ toString i₁ ++ "].field") with
      | error e => simp [Except.map]
      | ok lref =>
          dsimp only
          split
          · rename_i hops
            have hrec := ih (show (b₁.push w₁.value).2.args.length =
              (b₂.push w₂.value).2.args.length by simp [SqlBuilder.push, hlen])
            cases hr₁ : buildWhereParts validate t₁ (b₁.push w₁.value).2 with
            | error e₁ =>
                rw [hr₁] at hrec
                cases hr₂ : buildWhereParts validate t₂ (b₂.push w₂.value).2 with
                | error e₂ =>
                    rw [hr₂] at hrec
                    simp only [Except.map, Except.error.injEq] at hrec
                    simp [Except.map, hrec]
                | ok pb₂ =>
                    rw [hr₂] at hrec
                    exact absurd hrec (by simp [Except.map])
            | ok pb₁ =>
                rw [hr₁] at hrec
                cases hr₂ : buildWhereParts validate t₂ (b₂.push w₂.value).2 with
                | error e₂ =>
                    rw [hr₂] at hrec
                    exact absurd hrec (by simp [Except.map])
                | ok pb₂ =>
                    rw [hr₂] at hrec
                    obtain ⟨p₁, c₁⟩ := pb₁
                    obtain ⟨p₂, c₂⟩ := pb₂
                    simp only [Except.map, Except.ok.injEq, Prod.mk.injEq] at hrec
                    dsimp only
                    simp [Except.map, SqlBuilder.push, hlen, hrec.1, hrec.2]
          · split
            · rename_i hlike
              have hrec := ih
                (show (b₁.push (.vstr ("%" ++ goSprint w₁.value ++ "%"))).2.args.length =
                  (b₂.push (.vstr ("%" ++ goSprint w₂.value ++ "%"))).2.args.length by
                    simp [SqlBuilder.push, hlen])
              cases hr₁ : buildWhereParts validate t₁
                  (b₁.push (.vstr ("%" ++ goSprint w₁.value ++ "%"))).2 with
              | error e₁ =>
                  rw [hr₁] at hrec
                  cases hr₂ : buildWhereParts validate t₂
                      (b₂.push (.vstr ("%" ++ goSprint w₂.value ++ "%"))).2 with
                  | error e₂ =>
                      rw [hr₂] at hrec
                      simp only [Except.map, Except.error.injEq] at hrec
                      simp [Except.map, hrec]
                  | ok pb₂ =>
                      rw [hr₂] at hrec
                      exact absurd hrec (by simp [Except.map])
              | ok pb₁ =>
                  rw [hr₁] at hrec
                  cases hr₂ : buildWhereParts validate t₂
                      (b₂.push (.vstr ("%" ++ goSprint w₂.value ++ "%"))).2 with
                  | error e₂ =>
                      rw [hr₂] at hrec
                      exact absurd hrec (by simp [Except.map])
                  | ok pb₂ =>
                      rw [hr₂] at hrec
                      obtain ⟨p₁, c₁⟩ := pb₁
                      obtain ⟨p₂, c₂⟩ := pb₂
                      simp only [Except.map, Except.ok.injEq, Prod.mk.injEq] at hrec
                      dsimp only
                      simp [Except.map, SqlBuilder.push, hlen, hrec.1, hrec.2]
            · simp [Except.map]

/-- Where-lists with equal column references and normalized operators
enumerate to `Forall₂`-related index/spec pairs from any start index. -/
theorem forall₂_of_map_proj {w₁ w₂ : List WhereSpec}
    (h : w₁.map (fun w => (w.left, goLower (goTrim w.op))) =
      w₂.map (fun w => (w.left, goLower (goTrim w.op)))) :
    ∀ n, List.Forall₂ (fun iw₁ iw₂ : Nat × WhereSpec =>
      iw₁.1 = iw₂.1 ∧ iw₁.2.left = iw₂.2.left ∧
      goLower (goTrim iw₁.2.op) = goLower (goTrim iw₂.2.op))
      (w₁.enumFrom n) (w₂.enumFrom n) := by
  induction w₁ generalizing w₂ with
  | nil =>
      cases w₂ with
      | nil => intro n; exact List.Forall₂.nil
      | cons b t => simp at h
  | cons a t ih =>
      cases w₂ with
      | nil => simp at h
      | cons b t₂ =>
          simp only [List.map_cons, List.cons.injEq, Prod.mk.injEq] at h
          intro n
          exact List.Forall₂.cons ⟨rfl, h.1.1, h.1.2⟩ (ih h.2 (n + 1))

/-- The enumerated form of `forall₂_of_map_proj`. -/
theorem forall₂_of_map_proj_enum {w₁ w₂ : List WhereSpec}
    (h : w₁.map (fun w => (w.left, goLower (goTrim w.op))) =
      w₂.map (fun w => (w.left, goLower (goTrim w.op)))) :
    List.Forall₂ (fun iw₁ iw₂ : Nat × WhereSpec =>
      iw₁.1 = iw₂.1 ∧ iw₁.2.left = iw₂.2.left ∧
      goLower (goTrim iw₁.2.op) = goLower (goTrim iw₂.2.op))
      w₁.enum w₂.enum :=
  forall₂_of_map_proj h 0

/-- `BuildSQL` value independence: two runs over the same registry,
tenant and structural spec whose where-values differ arbitrarily, and
whose limits fall on the same side of the positivity test, produce the
same SQL text (or fail with the same error). -/
theorem BuildSQL_value_indep (reg : Registry) (cid : Int)
    (ft fa : String) (sel : List ColumnRef) (j : List JoinSpec)
    (ob : List OrderBySpec) (w₁ w₂ : List WhereSpec) (lim₁ lim₂ : Int)
    (hw : w₁.map (fun w => (w.left, goLower (goTrim w.op))) =
      w₂.map (fun w => (w.left, goLower (goTrim w.op))))
    (hlim : (lim₁ > 0) = (lim₂ > 0)) :
    (BuildSQL (some reg) cid (some ⟨ft, fa, sel, j, w₁, ob, lim₁⟩)).map
        (fun bq => bq.sql) =
      (BuildSQL (some reg) cid (some ⟨ft, fa, sel, j, w₂, ob, lim₂⟩)).map
        (fun bq => bq.sql) := by
  simp only [BuildSQL, baseAliasOf]
  split
  · rfl
  · split
    · rfl
    · rename_i bsch hbsch
      split
      · rfl
      · rename_i a2t env hjoins
        split
        · rfl
        · rename_i selSQL hsel
          split
          · rfl
          · rename_i joinParts hjp
            split
            · rfl
            · have hbw := buildWhereParts_value_indep
                (validateColReg (if goTrim fa = "" then ft else goTrim fa) env)
                (forall₂_of_map_proj_enum hw)
                (Eq.refl (tenantWhereParts cid env ⟨[]⟩).2.args.length)
              cases hr₁ : buildWhereParts
                  (validateColReg (if goTrim fa = "" then ft else goTrim fa) env)
                  w₁.enum (tenantWhereParts cid env ⟨[]⟩).2 with
              | error e₁ =>
                  rw [hr₁] at hbw
                  cases hr₂ : buildWhereParts
                      (validateColReg (if goTrim fa = "" then ft else goTrim fa) env)
                      w₂.enum (tenantWhereParts cid env ⟨[]⟩).2 with
                  | error e₂ =>
                      rw [hr₂] at hbw
                      simp only [Except.map, Except.error.injEq] at hbw
                      simp [Except.map, hbw]
                  | ok pb₂ =>
                      rw [hr₂] at hbw
                      exact absurd hbw (by simp [Except.map])
              | ok pb₁ =>
                  rw [hr₁] at hbw
                  cases hr₂ : buildWhereParts
                      (validateColReg (if goTrim fa = "" then ft else goTrim fa) env)
                      w₂.enum (tenantWhereParts cid env ⟨[]⟩).2 with
                  | error e₂ =>
                      rw [hr₂] at hbw
                      exact absurd hbw (by simp [Except.map])
                  | ok pb₂ =>
                      rw [hr₂] at hbw
                      obtain ⟨p₁, c₁⟩ := pb₁
                      obtain ⟨p₂, c₂⟩ := pb₂
                      simp only [Except.map, Except.ok.injEq, Prod.mk.injEq] at hbw
                      cases hord : (if ob.length > 0 then
                          (buildOrderParts (validateColReg
                            (if goTrim fa = "" then ft else goTrim fa) env) ob.enum).map
                            (fun ps => " ORDER BY " ++ goJoin ps ",")
                        else (.ok "" : Except AppError String)) with
                      | error v => rfl
                      | ok osql =>
                          dsimp only
                          by_cases hl : lim₁ > 0
                          · rw [if_pos hl, if_pos (Eq.mp hlim hl)]
                            simp [Except.map, SqlBuilder.push, hbw.1, hbw.2]
                          · rw [if_neg hl, if_neg (fun h2 => hl (Eq.mpr hlim h2))]
                            simp [Except.map, hbw.1]

set_option maxHeartbeats 2000000 in
/-- `BuildSQLWithIntrospection` value independence: two runs over the
same database, tenant, policy and structural spec whose where-values
differ arbitrarily, and whose limits fall on the same side of the
positivity test, produce the same SQL text (or fail with the same
error). -/
theorem BuildSQLI_value_indep (db : IntrospectDB) (cid : Int) (policy : TablePolicy)
    (ft fa : String) (sel : List ColumnRef) (j : List JoinSpec)
    (ob : List OrderBySpec) (w₁ w₂ : List WhereSpec) (lim₁ lim₂ : Int)
    (hw : w₁.map (fun w => (w.left, goLower (goTrim w.op))) =
      w₂.map (fun w => (w.left, goLower (goTrim w.op))))
    (hlim : (lim₁ > 0) = (lim₂ > 0)) :
    (BuildSQLWithIntrospection (some db) cid (some ⟨ft, fa, sel, j, w₁, ob, lim₁⟩)
        policy).map (fun bq => bq.sql) =
      (BuildSQLWithIntrospection (some db) cid (some ⟨ft, fa, sel, j, w₂, ob, lim₂⟩)
        policy).map (fun bq => bq.sql) := by
  simp only [BuildSQLWithIntrospection, baseAliasOf]
  generalize (if goTrim fa = "" then ft else goTrim fa) = A
  split
  · rfl
  · split
    · rfl
    · split
      · rfl
      · split
        · rfl
        · split
          · rfl
          · rename_i a2t hjoins
            split
            · rfl
            · rename_i cols hcols
              split
              · rfl
              · split
                · rfl
                · rename_i selSQL hsel
                  split
                  · rfl
                  · rename_i joinParts hjp
                    have hbw := buildWhereParts_value_indep
                      (validateColIntro A cols)
                      (forall₂_of_map_proj_enum hw)
                      (Eq.refl (tenantWherePartsI cid cols ⟨[]⟩).2.args.length)
                    cases hr₁ : buildWhereParts
                        (validateColIntro A cols)
                        w₁.enum (tenantWherePartsI cid cols ⟨[]⟩).2 with
                    | error e₁ =>
                        rw [hr₁] at hbw
                        cases hr₂ : buildWhereParts
                            (validateColIntro A cols)
                            w₂.enum (tenantWherePartsI cid cols ⟨[]⟩).2 with
                        | error e₂ =>
                            rw [hr₂] at hbw
                            simp only [Except.map, Except.error.injEq] at hbw
                            simp [Except.map, hbw]
                        | ok pb₂ =>
                            rw [hr₂] at hbw
                            exact absurd hbw (by simp [Except.map])
                    | ok pb₁ =>
                        rw [hr₁] at hbw
                        cases hr₂ : buildWhereParts
                            (validateColIntro A cols)
                            w₂.enum (tenantWherePartsI cid cols ⟨[]⟩).2 with
                        | error e₂ =>
                            rw [hr₂] at hbw
                            exact absurd hbw (by simp [Except.map])
                        | ok pb₂ =>
                            rw [hr₂] at hbw
                            obtain ⟨p₁, c₁⟩ := pb₁
                            obtain ⟨p₂, c₂⟩ := pb₂
                            simp only [Except.map, Except.ok.injEq, Prod.mk.injEq] at hbw
                            rw [hbw.1]
                            cases hord : (if ob.length > 0 then
                                (buildOrderParts (validateColIntro A cols) ob.enum).map
                                  (fun ps => " ORDER BY " ++ goJoin ps ",")
                              else (.ok "" : Except AppError String)) with
                            | error v => rfl
                            | ok osql =>
                                dsimp only
                                split
                                · rfl
                                · by_cases hl : lim₁ > 0
                                  · rw [if_pos hl, if_pos (Eq.mp hlim hl)]
                                    simp [Except.map, SqlBuilder.push, hbw.2]
                                  · rw [if_neg hl,
                                      if_neg (fun h2 => hl (Eq.mpr hlim h2))]
                                    simp [Except.map]

/-- The equality-filter loop compiles the same clause texts and the
same argument counts for any two filter maps over the same key list:
the bound values never reach the SQL text. -/
theorem applyEqFilters_value_indep (s : Schema) (m₁ m₂ : List (String × GoVal)) :
    ∀ (ks : List String) {b₁ b₂ : SqlBuilder}, b₁.args.length = b₂.args.length →
      (applyEqFilters s m₁ ks b₁).map (fun pb => (pb.1, pb.2.args.length)) =
        (applyEqFilters s m₂ ks b₂).map (fun pb => (pb.1, pb.2.args.length)) := by
  intro ks
  induction ks with
  | nil => intro b₁ b₂ hlen; simp [applyEqFilters, Except.map, hlen]
  | cons k rest ih =>
      intro b₁ b₂ hlen
      simp only [applyEqFilters]
      split
      · simp [Except.map]
      · have hrec := ih
          (show (b₁.eq (resolveAlias s k) ((alookup m₁ k).getD .vnull)).2.args.length =
            (b₂.eq (resolveAlias s k) ((alookup m₂ k).getD .vnull)).2.args.length by
              simp [SqlBuilder.eq, SqlBuilder.push, hlen])
        cases hr₁ : applyEqFilters s m₁ rest
            (b₁.eq (resolveAlias s k) ((alookup m₁ k).getD .vnull)).2 with
        | error e₁ =>
            rw [hr₁] at hrec
            cases hr₂ : applyEqFilters s m₂ rest
                (b₂.eq (resolveAlias s k) ((alookup m₂ k).getD .vnull)).2 with
            | error e₂ =>
                rw [hr₂] at hrec
                simp only [Except.map, Except.error.injEq] at hrec
                simp [Except.map, hrec]
            | ok pb₂ =>
                rw [hr₂] at hrec
                exact absurd hrec (by simp [Except.map])
        | ok pb₁ =>
            rw [hr₁] at hrec
            cases hr₂ : applyEqFilters s m₂ rest
                (b₂.eq (resolveAlias s k) ((alookup m₂ k).getD .vnull)).2 with
            | error e₂ =>
                rw [hr₂] at hrec
                exact absurd hrec (by simp [Except.map])
            | ok pb₂ =>
                rw [hr₂] at hrec
                obtain ⟨p₁, c₁⟩ := pb₁
                obtain ⟨p₂, c₂⟩ := pb₂
                simp only [Except.map, Except.ok.injEq, Prod.mk.injEq] at hrec
                dsimp only
                simp [Except.map, SqlBuilder.eq, SqlBuilder.push, hlen, hrec.1, hrec.2]

/-- The like-filter loop compiles the same clause texts and the same
argument counts for any two filter maps over the same key list: the
bound patterns never reach the SQL text. -/
theorem applyLikeFilters_value_indep (s : Schema) (m₁ m₂ : List (String × GoVal)) :
    ∀ (ks : List String) {b₁ b₂ : SqlBuilder}, b₁.args.length = b₂.args.length →
      (applyLikeFilters s m₁ ks b₁).map (fun pb => (pb.1, pb.2.args.length)) =
        (applyLikeFilters s m₂ ks b₂).map (fun pb => (pb.1, pb.2.args.length)) := by
  intro ks
  induction ks with
  | nil => intro b₁ b₂ hlen; simp [applyLikeFilters, Except.map, hlen]
  | cons k rest ih =>
      intro b₁ b₂ hlen
      simp only [applyLikeFilters]
      split
      · simp [Except.map]
      · have hrec := ih
          (show (b₁.ilike (resolveAlias s k)
              (.vstr ("%" ++ goSprint ((alookup m₁ k).getD .vnull) ++ "%"))).2.args.length =
            (b₂.ilike (resolveAlias s k)
              (.vstr ("%" ++ goSprint ((alookup m₂ k).getD .vnull) ++ "%"))).2.args.length by
              simp [SqlBuilder.ilike, SqlBuilder.push, hlen])
        cases hr₁ : applyLikeFilters s m₁ rest
            (b₁.ilike (resolveAlias s k)
              (.vstr ("%" ++ goSprint ((alookup m₁ k).getD .vnull) ++ "%"))).2 with
        | error e₁ =>
            rw [hr₁] at hrec
            cases hr₂ : applyLikeFilters s m₂ rest
                (b₂.ilike (resolveAlias s k)
                  (.vstr ("%" ++ goSprint ((alookup m₂ k).getD .vnull) ++ "%"))).2 with
            | error e₂ =>
                rw [hr₂] at hrec
                simp only [Except.map, Except.error.injEq] at hrec
                simp [Except.map, hrec]
            | ok pb₂ =>
                rw [hr₂] at hrec
                exact absurd hrec (by simp [Except.map])
        | ok pb₁ =>
            rw [hr₁] at hrec
            cases hr₂ : applyLikeFilters s m₂ rest
                (b₂.ilike (resolveAlias s k)
                  (.vstr ("%" ++ goSprint ((alookup m₂ k).getD .vnull) ++ "%"))).2 with
            | error e₂ =>
                rw [hr₂] at hrec
                exact absurd hrec (by simp [Except.map])
            | ok pb₂ =>
                rw [hr₂] at hrec
                obtain ⟨p₁, c₁⟩ := pb₁
                obtain ⟨p₂, c₂⟩ := pb₂
                simp only [Except.map, Except.ok.injEq, Prod.mk.injEq] at hrec
                dsimp only
                simp [Except.map, SqlBuilder.ilike, SqlBuilder.push, hlen, hrec.1, hrec.2]

/-- `selectPageQuery` value independence: two requests with the same
select list, order-by list and (deduplicated, sorted) filter keys —
whose filter values, page and page size differ arbitrarily — produce the
same SQL text (or fail with the same error). -/
theorem selectPageQuery_value_indep (s : Schema) (cid : Int)
    (selL : List String) (ob : List OrderBy)
    (m₁ m₂ l₁ l₂ : List (String × GoVal)) (pg₁ pg₂ pp₁ pp₂ : Int)
    (hkw : sortedKeys m₁ = sortedKeys m₂) (hkl : sortedKeys l₁ = sortedKeys l₂) :
    (selectPageQuery s cid ⟨selL, m₁, l₁, ob, pg₁, pp₁⟩).map (fun bs => bs.sql) =
      (selectPageQuery s cid ⟨selL, m₂, l₂, ob, pg₂, pp₂⟩).map (fun bs => bs.sql) := by
  simp only [selectPageQuery]
  split
  · rfl
  · split
    · rfl
    · rename_i selectCols hsel
      split
      · rfl
      · rw [hkw, hkl]
        have heq := applyEqFilters_value_indep s m₁ m₂ (sortedKeys m₂)
          (Eq.refl (SqlBuilder.eq ⟨[]⟩ "company_id" (.vint cid)).2.args.length)
        cases hr₁ : applyEqFilters s m₁ (sortedKeys m₂)
            (SqlBuilder.eq ⟨[]⟩ "company_id" (.vint cid)).2 with
        | error e₁ =>
            rw [hr₁] at heq
            cases hr₂ : applyEqFilters s m₂ (sortedKeys m₂)
                (SqlBuilder.eq ⟨[]⟩ "company_id" (.vint cid)).2 with
            | error e₂ =>
                rw [hr₂] at heq
                simp only [Except.map, Except.error.injEq] at heq
                simp [Except.map, heq]
            | ok pb₂ =>
                rw [hr₂] at heq
                exact absurd heq (by simp [Except.map])
        | ok pb₁ =>
            rw [hr₁] at heq
            cases hr₂ : applyEqFilters s m₂ (sortedKeys m₂)
                (SqlBuilder.eq ⟨[]⟩ "company_id" (.vint cid)).2 with
            | error e₂ =>
                rw [hr₂] at heq
                exact absurd heq (by simp [Except.map])
            | ok pb₂ =>
                rw [hr₂] at heq
                obtain ⟨p₁, c₁⟩ := pb₁
                obtain ⟨p₂, c₂⟩ := pb₂
                simp only [Except.map, Except.ok.injEq, Prod.mk.injEq] at heq
                dsimp only
                have hlk := applyLikeFilters_value_indep s l₁ l₂ (sortedKeys l₂)
                  (show c₁.args.length = c₂.args.length from heq.2)
                cases hs₁ : applyLikeFilters s l₁ (sortedKeys l₂) c₁ with
                | error e₁ =>
                    rw [hs₁] at hlk
                    cases hs₂ : applyLikeFilters s l₂ (sortedKeys l₂) c₂ with
                    | error e₂ =>
                        rw [hs₂] at hlk
                        simp only [Except.map, Except.error.injEq] at hlk
                        simp [Except.map, hlk]
                    | ok qb₂ =>
                        rw [hs₂] at hlk
                        exact absurd hlk (by simp [Except.map])
                | ok qb₁ =>
                    rw [hs₁] at hlk
                    cases hs₂ : applyLikeFilters s l₂ (sortedKeys l₂) c₂ with
                    | error e₂ =>
                        rw [hs₂] at hlk
                        exact absurd hlk (by simp [Except.map])
                    | ok qb₂ =>
                        rw [hs₂] at hlk
                        obtain ⟨q₁, d₁⟩ := qb₁
                        obtain ⟨q₂, d₂⟩ := qb₂
                        simp only [Except.map, Except.ok.injEq, Prod.mk.injEq] at hlk
                        dsimp only
                        split
                        · rfl
                        · rename_i osql hord
                          simp [Except.map, SqlBuilder.arg, SqlBuilder.push,
                            heq.1, hlk.1, hlk.2]

/-- C6 witness: the amended theorem applied to the wildcard-bearing
`like` query against the demo registry under tenant 5. -/
theorem C6_witness :
    (∀ w ∈ likeDemoSpec.wheres,
      goLower (goTrim w.op) = "=" ∨ goLower (goTrim w.op) = "<=" ∨
      goLower (goTrim w.op) = ">=" ∨ goLower (goTrim w.op) = "<" ∨
      goLower (goTrim w.op) = ">" ∨ goLower (goTrim w.op) = "like") ∧
    ∃ (env : List (String × Schema)) (lefts : List ColumnRef)
      (pre limArgs : List GoVal) (selSQL joinSQL osql limSQL : String),
      (BuiltQuery.mk "SELECT * FROM m AS m  WHERE m.company_id = $1 AND m.id ILIKE $2"
          [GoVal.vint 5, GoVal.vstr "%a%b%"]).args =
        pre ++ likeDemoSpec.wheres.map whereBound ++ limArgs ∧
      (BuiltQuery.mk "SELECT * FROM m AS m  WHERE m.company_id = $1 AND m.id ILIKE $2"
          [GoVal.vint 5, GoVal.vstr "%a%b%"]).sql =
        "SELECT " ++ selSQL ++ " FROM " ++
          (likeDemoSpec.fromTable ++ " AS " ++ baseAliasOf likeDemoSpec) ++ " " ++
          joinSQL ++ " WHERE " ++ goJoin ((tenantWhereParts 5 env ⟨[]⟩).1 ++
            wherePartsFormula pre.length
              (lefts.zip (likeDemoSpec.wheres.map (fun w => goLower (goTrim w.op)))))
            " AND " ++ osql ++ limSQL :=
  C6_amended.1 scenarioRegistry 5 likeDemoSpec
    (BuiltQuery.mk "SELECT * FROM m AS m  WHERE m.company_id = $1 AND m.id ILIKE $2"
      [GoVal.vint 5, GoVal.vstr "%a%b%"]) (by decide)

/-- A query over the registered table `m` that is empty apart from its
limit. -/
def limitDemoSpec (lim : Int) : QuerySpec := ⟨"m", "", [], [], [], [], lim⟩

/-- An equality predicate on `m.id` with value `x`. -/
def eqDemoWhereX : WhereSpec := ⟨⟨"", "id"⟩, "=", GoVal.vstr "x"⟩

/-- An equality predicate on `m.id` with value `y`. -/
def eqDemoWhereY : WhereSpec := ⟨⟨"", "id"⟩, "=", GoVal.vstr "y"⟩

/-- C1 counterexample: two `BuildSQL` invocations whose inputs differ
only in the literal limit value (0 versus 1) emit different SQL text —
the `LIMIT` clause is present only when the limit is positive. -/
theorem C1_counterexample :
    BuildSQL (some scenarioRegistry) 5 (some (limitDemoSpec 0)) =
      .ok ⟨"SELECT * FROM m AS m  WHERE m.company_id = $1", [GoVal.vint 5]⟩ ∧
    BuildSQL (some scenarioRegistry) 5 (some (limitDemoSpec 1)) =
      .ok ⟨"SELECT * FROM m AS m  WHERE m.company_id = $1 LIMIT $2",
        [GoVal.vint 5, GoVal.vint 1]⟩ ∧
    (limitDemoSpec 0).fromTable = (limitDemoSpec 1).fromTable ∧
    (limitDemoSpec 0).fromAlias = (limitDemoSpec 1).fromAlias ∧
    (limitDemoSpec 0).select = (limitDemoSpec 1).select ∧
    (limitDemoSpec 0).joins = (limitDemoSpec 1).joins ∧
    (limitDemoSpec 0).wheres = (limitDemoSpec 1).wheres ∧
    (limitDemoSpec 0).orderBy = (limitDemoSpec 1).orderBy ∧
    ("SELECT * FROM m AS m  WHERE m.company_id = $1" : String) ≠
      "SELECT * FROM m AS m  WHERE m.company_id = $1 LIMIT $2" := by
  refine ⟨by decide, by decide, rfl, rfl, rfl, rfl, rfl, rfl, by decide⟩

/-- C1 (amended): values are never interpolated into the emitted SQL
text — in all three builders, two runs whose inputs differ only in
literal values produce the same SQL text (and, on failure, the same
error), with one caveat the original claim misses: the limit
participates via its positivity — the `LIMIT` clause is emitted exactly
when the limit is positive, so only limits on the same side of the
positivity test yield identical SQL. For `BuildSQL` and
`BuildSQLWithIntrospection` the where-values and the limit magnitude
are irrelevant; for `selectPageQuery` the filter values, page and page
size are all irrelevant to the SQL text. -/
theorem C1_amended :
    (∀ (reg : Registry) (cid : Int) (ft fa : String) (sel : List ColumnRef)
        (j : List JoinSpec) (ob : List OrderBySpec) (w₁ w₂ : List WhereSpec)
        (lim₁ lim₂ : Int),
      w₁.map (fun w => (w.left, goLower (goTrim w.op))) =
        w₂.map (fun w => (w.left, goLower (goTrim w.op))) →
      (lim₁ > 0) = (lim₂ > 0) →
      (BuildSQL (some reg) cid (some ⟨ft, fa, sel, j, w₁, ob, lim₁⟩)).map
          (fun bq => bq.sql) =
        (BuildSQL (some reg) cid (some ⟨ft, fa, sel, j, w₂, ob, lim₂⟩)).map
          (fun bq => bq.sql)) ∧
    (∀ (db : IntrospectDB) (cid : Int) (policy : TablePolicy) (ft fa : String)
        (sel : List ColumnRef) (j : List JoinSpec) (ob : List OrderBySpec)
        (w₁ w₂ : List WhereSpec) (lim₁ lim₂ : Int),
      w₁.map (fun w => (w.left, goLower (goTrim w.op))) =
        w₂.map (fun w => (w.left, goLower (goTrim w.op))) →
      (lim₁ > 0) = (lim₂ > 0) →
      (BuildSQLWithIntrospection (some db) cid (some ⟨ft, fa, sel, j, w₁, ob, lim₁⟩)
          policy).map (fun bq => bq.sql) =
        (BuildSQLWithIntrospection (some db) cid (some ⟨ft, fa, sel, j, w₂, ob, lim₂⟩)
          policy).map (fun bq => bq.sql)) ∧
    (∀ (s : Schema) (cid : Int) (selL : List String) (ob : List OrderBy)
        (m₁ m₂ l₁ l₂ : List (String × GoVal)) (pg₁ pg₂ pp₁ pp₂ : Int),
      sortedKeys m₁ = sortedKeys m₂ → sortedKeys l₁ = sortedKeys l₂ →
      (selectPageQuery s cid ⟨selL, m₁, l₁, ob, pg₁, pp₁⟩).map (fun bs => bs.sql) =
        (selectPageQuery s cid ⟨selL, m₂, l₂, ob, pg₂, pp₂⟩).map (fun bs => bs.sql)) :=
  ⟨fun reg cid ft fa sel j ob w₁ w₂ lim₁ lim₂ hw hlim =>
      BuildSQL_value_indep reg cid ft fa sel j ob w₁ w₂ lim₁ lim₂ hw hlim,
    fun db cid policy ft fa sel j ob w₁ w₂ lim₁ lim₂ hw hlim =>
      BuildSQLI_value_indep db cid policy ft fa sel j ob w₁ w₂ lim₁ lim₂ hw hlim,
    fun s cid selL ob m₁ m₂ l₁ l₂ pg₁ pg₂ pp₁ pp₂ hkw hkl =>
      selectPageQuery_value_indep s cid selL ob m₁ m₂ l₁ l₂ pg₁ pg₂ pp₁ pp₂ hkw hkl⟩

/-- C1 witness: the amended theorem applied to two concrete `BuildSQL`
runs whose equality predicates bind different values. -/
theorem C1_witness :
    (BuildSQL (some scenarioRegistry) 5
        (some ⟨"m", "", [], [], [eqDemoWhereX], [], 0⟩)).map (fun bq => bq.sql) =
      (BuildSQL (some scenarioRegistry) 5
        (some ⟨"m", "", [], [], [eqDemoWhereY], [], 0⟩)).map (fun bq => bq.sql) :=
  C1_amended.1 scenarioRegistry 5 "m" "" [] [] [] [eqDemoWhereX] [eqDemoWhereY] 0 0
    (by decide) rfl

end MyLab
